import Mathlib

/-!
Verification of the storage resource-provider sample script (`example.go`).

The script is a linear orchestration program: it reads credentials from the
environment, builds four service clients, then issues a fixed sequence of
remote management calls, printing results after each step, and finally
prompts before deleting the created resources.

The embedding below is a shallow one.  Console output, remote calls, client
assignments and the single interactive read are recorded as `Event`s in a
trace.  A computation is a value of type `M α`: it either returns normally
(`ok`), terminates the process via `os.Exit` (`exit`), or hits a Go runtime
panic such as a nil-pointer dereference or an out-of-range slice (`crash`).
Remote results are supplied through a `Provider` record, one `Except` field
per remote endpoint; Go pointers in response payloads become `Option`s.
-/

set_option autoImplicit false

namespace StorageRP

/-- Names of the remote calls the script can issue, in the role they play in
the fixed sequence. -/
inductive CallName where
  | register
  | checkName
  | createGroup
  | createAccount
  | getProps
  | listByGroup
  | listAccounts
  | listKeys
  | regenKey
  | update
  | listUsage
  | deleteAccount
  | deleteGroup
  deriving DecidableEq

/-- Observable events of a run: console prints, the single interactive read,
assignments of the four global clients, and each remote call (the regenerate
and update calls carry their request payloads). -/
inductive Event where
  | print (s : String)
  | readLine (s : String)
  | assignClient (which : String) (subscriptionID : String)
  | callRegister
  | callCheckName
  | callCreateGroup
  | callCreateAccount
  | callGetProps
  | callListByGroup
  | callListAccounts
  | callListKeys
  | callRegenKey (keyName : Option String)
  | callUpdate (tags : List (String × String))
  | callListUsage
  | callDeleteAccount
  | callDeleteGroup
  deriving DecidableEq

/-- Result of a computation: normal return, `os.Exit` with a code, or a Go
runtime panic.  Every constructor carries the trace of events emitted up to
that point. -/
inductive M (α : Type) where
  | ok : α → List Event → M α
  | exit : Nat → List Event → M α
  | crash : List Event → M α
  deriving DecidableEq

namespace M

variable {α β : Type}

/-- Prepend an already-emitted trace to a computation result. -/
def withPre (t : List Event) : M α → M α
  | .ok a t' => .ok a (t ++ t')
  | .exit c t' => .exit c (t ++ t')
  | .crash t' => .crash (t ++ t')

/-- Sequencing: an `exit` or `crash` aborts the rest of the program. -/
def bind : M α → (α → M β) → M β
  | .ok a t, f => (f a).withPre t
  | .exit c t, _ => .exit c t
  | .crash t, _ => .crash t

/-- The events emitted during the run. -/
def events : M α → List Event
  | .ok _ t => t
  | .exit _ t => t
  | .crash t => t

/-- Did the computation return normally? -/
def isOk : M α → Bool
  | .ok _ _ => true
  | _ => false

/-- Did the computation hit a runtime panic? -/
def isCrash : M α → Bool
  | .crash _ => true
  | _ => false

end M

instance : Monad M where
  pure a := .ok a []
  bind := M.bind

/-- Final state of the operating-system process: a normal exit code, or an
abnormal termination caused by a runtime panic. -/
inductive Outcome where
  | code (c : Nat)
  | panicked
  deriving DecidableEq

/-- The process outcome of a run: returning from `main` exits with code 0,
`os.Exit c` exits with code `c`, and a panic terminates abnormally. -/
def M.outcome {α : Type} : M α → Outcome
  | .ok _ _ => .code 0
  | .exit c _ => .code c
  | .crash _ => .panicked

/-- Emit one event. -/
def emit (e : Event) : M Unit := .ok () [e]

/-- `os.Exit c`. -/
def exitNow {α : Type} (c : Nat) : M α := .exit c []

/-- A Go runtime panic (nil dereference, slice out of range, ...). -/
def crashNow {α : Type} : M α := .crash []

/-- Dereference a Go pointer: panics when nil. -/
def deref {α : Type} : Option α → M α
  | some a => pure a
  | none => crashNow

/-- Go slice indexing `xs[i]`: panics when out of range. -/
def nth {α : Type} : List α → Nat → M α
  | a :: _, 0 => pure a
  | _ :: as, n + 1 => nth as n
  | [], _ => crashNow

/-- Go string slicing `s[:n]`: panics when `n` exceeds the length. -/
def takeBytes (s : String) (n : Nat) : M String :=
  if n ≤ s.length then pure (s.take n) else crashNow

/-- A Go `for ... range` loop over a slice with an effectful body. -/
def forEach {α : Type} : List α → (α → M Unit) → M Unit
  | [], _ => pure ()
  | a :: as, f => do
    f a
    forEach as f

/-! ### Response payloads (pointers become `Option`s) -/

/-- Payload of the name-availability response: `NameAvailable *bool`,
`Reason` (a plain enum rendered as a string), `Message *string`. -/
structure CheckNameAvailabilityResult where
  nameAvailable : Option Bool
  reason : String
  message : Option String
  deriving DecidableEq

/-- Payload of the account-properties response; the fields the script prints.
`Sku` and the embedded properties struct are pointers in the source, so the
sku name and the provisioning state sit behind an extra `Option`. -/
structure Account where
  name : Option String
  id : Option String
  skuName : Option String
  «type» : Option String
  location : Option String
  provisioningState : Option String
  deriving DecidableEq

/-- Payload of an account-list response: `Value *[]Account`. -/
structure AccountListResult where
  value : Option (List Account)
  deriving DecidableEq

/-- One account key: `KeyName *string`, `Value *string`, `Permissions` (a
plain enum rendered as a string). -/
structure AccountKey where
  keyName : Option String
  value : Option String
  permissions : String
  deriving DecidableEq

/-- Payload of the key-list and key-regenerate responses: `Keys *[]Key`. -/
structure AccountListKeysResult where
  keys : Option (List AccountKey)
  deriving DecidableEq

/-- `UsageName` with `Value *string`. -/
structure UsageName where
  value : Option String
  deriving DecidableEq

/-- One usage record: `Name *UsageName`, `CurrentValue *int32`,
`Limit *int32`. -/
structure Usage where
  name : Option UsageName
  currentValue : Option Int
  limit : Option Int
  deriving DecidableEq

/-- Payload of the usage-list response: `Value *[]Usage`. -/
structure UsageListResult where
  value : Option (List Usage)
  deriving DecidableEq

instance {ε α : Type} [DecidableEq ε] [DecidableEq α] : DecidableEq (Except ε α) := fun x y =>
  match x, y with
  | .error a, .error b =>
    if h : a = b then .isTrue (by rw [h]) else .isFalse (by simp [h])
  | .ok a, .ok b =>
    if h : a = b then .isTrue (by rw [h]) else .isFalse (by simp [h])
  | .error _, .ok _ => .isFalse (by simp)
  | .ok _, .error _ => .isFalse (by simp)

/-- The remote collaborators, as the response (or transport error) each
endpoint would return to this run. -/
structure Provider where
  registerR : Except String Unit
  checkNameR : Except String CheckNameAvailabilityResult
  createGroupR : Except String Unit
  createAccountR : Except String Unit
  getPropsR : Except String Account
  listByGroupR : Except String AccountListResult
  listR : Except String AccountListResult
  listKeysR : Except String AccountListKeysResult
  regenKeyR : Except String AccountListKeysResult
  updateR : Except String Unit
  listUsageR : Except String UsageListResult
  deleteAccountR : Except String Unit
  deleteGroupR : Except String Unit
  deriving DecidableEq

/-- The four required environment variables; as in Go, an unset variable
reads as the empty string. -/
structure Env where
  subscriptionID : String
  tenantID : String
  clientID : String
  clientSecret : String
  deriving DecidableEq

/-! ### Constants of the script -/

def location : String := "westus"

def groupName : String := "your-azure-sample-group"

def accountName : String := "golangrocksonazure"

def provider : String := "Microsoft.Storage"

/-! ### The script -/

/-- `getEnvVarOrExit` returns the value of the specified environment variable
or terminates if it is not defined. -/
def getEnvVarOrExit (varName value : String) : M String := do
  if value = "" then
    emit (.print ("Missing environment variable " ++ varName ++ "\n"))
    exitNow 1
  else
    pure value

/-- `onErrorFail` prints a failure message and exits the program if `err` is
not nil. -/
def onErrorFail (err : Option String) (message : String) : M Unit := do
  match err with
  | some e =>
    emit (.print (message ++ ": " ++ e ++ "\n"))
    exitNow 1
  | none => pure ()

/-- The error component of a Go `(result, err)` pair. -/
def errOf {α : Type} : Except String α → Option String
  | .error e => some e
  | .ok _ => none

/-- The Go pattern `result, err := call(...); onErrorFail(err, message)`,
yielding the result when the call succeeded.  The fallback branch is
unreachable: when the result is an error, `onErrorFail` has already exited. -/
def checkedCall {α : Type} (r : Except String α) (message : String) : M α := do
  onErrorFail (errOf r) message
  match r with
  | .ok a => pure a
  | .error _ => exitNow 1

/-- `createClients` assigns the four global service clients exactly once,
each from the same subscription id and token. -/
def createClients (subscriptionID : String) : M Unit := do
  emit (.assignClient "resourcesClient" subscriptionID)
  emit (.assignClient "storageClient" subscriptionID)
  emit (.assignClient "groupClient" subscriptionID)
  emit (.assignClient "usageClient" subscriptionID)

/-- The `init` function: resolve the four environment variables (exiting on
the first missing one), build the OAuth config and service-principal token
(each a local library call that may fail), then create the clients.
`oauthR` and `tokenR` stand for the results of the two library calls. -/
def init (env : Env) (oauthR : Except String Unit) (tokenR : Except String Unit) : M Unit := do
  let subscriptionID ← getEnvVarOrExit "AZURE_SUBSCRIPTION_ID" env.subscriptionID
  let _ ← getEnvVarOrExit "AZURE_TENANT_ID" env.tenantID
  onErrorFail (errOf oauthR) "OAuthConfigForTenant failed"
  let _ ← getEnvVarOrExit "AZURE_CLIENT_ID" env.clientID
  let _ ← getEnvVarOrExit "AZURE_CLIENT_SECRET" env.clientSecret
  onErrorFail (errOf tokenR) "NewServicePrincipalToken failed"
  createClients subscriptionID

def registerResourceProvider (p : Provider) : M Unit := do
  emit (.print "Register resource provider...\n")
  emit .callRegister
  let _ ← checkedCall p.registerR "Register failed"
  pure ()

def checkAccountAvailability (p : Provider) : M Unit := do
  emit (.print "Check account name availability...\n")
  emit .callCheckName
  let result ← checkedCall p.checkNameR "CheckNameAvailability failed"
  let avail ← deref result.nameAvailable
  if avail then
    emit (.print ("\t\x27" ++ accountName ++ "\x27 is available!\n"))
  else do
    let msg ← deref result.message
    emit (.print ("\t\x27" ++ accountName ++ "\x27 is not available :(\n\tReason: "
      ++ result.reason ++ "\n\tMessage: " ++ msg ++ "\n"))
    emit (.print "No resources were created.\n")
    exitNow 1

def createResourceGroup (p : Provider) : M Unit := do
  emit (.print "Create resource group...\n")
  emit .callCreateGroup
  let _ ← checkedCall p.createGroupR "CreateOrUpdate failed"
  pure ()

def createStorageAccount (p : Provider) : M Unit := do
  emit (.print "Create storage account...\n")
  emit .callCreateAccount
  let _ ← checkedCall p.createAccountR "Create failed"
  pure ()

def getStorageAccountProperties (p : Provider) : M Unit := do
  emit (.print "Get storage account properties...\n")
  emit .callGetProps
  let account ← checkedCall p.getPropsR "GetProperties failed"
  let n ← deref account.name
  emit (.print ("\x27" ++ n ++ "\x27 storage account properties\n"))
  let i ← deref account.id
  emit (.print ("\t                ID: " ++ i ++ "\n"))
  let sk ← deref account.skuName
  emit (.print ("\t          Sku Name: " ++ sk ++ "\n"))
  let ty ← deref account.«type»
  emit (.print ("\t              Type: " ++ ty ++ "\n"))
  let loc ← deref account.location
  emit (.print ("\t          Location: " ++ loc ++ "\n"))
  let ps ← deref account.provisioningState
  emit (.print ("\tProvisioning State: " ++ ps ++ "\n"))

def printAccountList (list : AccountListResult) : M Unit := do
  let accs ← deref list.value
  forEach accs (fun acc => do
    let n ← deref acc.name
    emit (.print ("\t" ++ n ++ "\n")))

def listStorageAccountsByResourceGroup (p : Provider) : M Unit := do
  emit (.print ("List all storage accounts in \x27" ++ groupName ++ "\x27 resource group\n"))
  emit .callListByGroup
  let list ← checkedCall p.listByGroupR "ListByResourceGroup failed"
  printAccountList list

def listStorageAccountsBySubscription (p : Provider) : M Unit := do
  emit (.print "List all storage accounts under the subscription\n")
  emit .callListAccounts
  let list ← checkedCall p.listR "List failed"
  printAccountList list

/-- The key display line: name, truncated value, permissions.  The same
format string is used by the listing step and by the regeneration step. -/
def keyLine (keyName truncatedValue permissions : String) : String :=
  "\tKey name: " ++ keyName ++ "\n\tValue: " ++ truncatedValue
    ++ "...\n\tPermissions: " ++ permissions ++ "\n"

def getStorageKeys (p : Provider) : M AccountListKeysResult := do
  emit (.print "Get storage account keys...\n")
  emit .callListKeys
  let keys ← checkedCall p.listKeysR "ListKeys failed"
  emit (.print ("\x27" ++ accountName ++ "\x27 storage account keys\n"))
  let ks ← deref keys.keys
  forEach ks (fun key => do
    let kn ← deref key.keyName
    let v ← deref key.value
    let tv ← takeBytes v 5
    emit (.print (keyLine kn tv key.permissions))
    emit (.print "\t----------------\n"))
  pure keys

def regenStorageKey (p : Provider) (keys : AccountListKeysResult) : M Unit := do
  emit (.print "Regenerate account key...\n")
  let ks ← deref keys.keys
  let k0 ← nth ks 0
  emit (.callRegenKey k0.keyName)
  let newKeys ← checkedCall p.regenKeyR "RegenerateKey failed"
  emit (.print "New key\n")
  let nks ← deref newKeys.keys
  let nk0 ← nth nks 0
  let nkn ← deref nk0.keyName
  let nv ← deref nk0.value
  let tv ← takeBytes nv 5
  emit (.print (keyLine nkn tv nk0.permissions))

/-- The two fixed tag pairs the update call always sends. -/
def fixedTags : List (String × String) :=
  [("who rocks", "golang"), ("where", "on azure")]

def updateStorageAccount (p : Provider) : M Unit := do
  emit (.print "Update storage account...\n")
  emit (.callUpdate fixedTags)
  let _ ← checkedCall p.updateR "Update failed"
  pure ()

def listUsage (p : Provider) : M Unit := do
  emit (.print "List usage for storage accounts in subscription...\n")
  emit .callListUsage
  let usageList ← checkedCall p.listUsageR "List failed"
  let us ← deref usageList.value
  forEach us (fun usage => do
    let un ← deref usage.name
    let unv ← deref un.value
    let cv ← deref usage.currentValue
    let lim ← deref usage.limit
    emit (.print ("\t" ++ unv ++ ": " ++ toString cv ++ " / " ++ toString lim ++ "\n")))

def delete (p : Provider) : M Unit := do
  emit (.print "Delete storage account...\n")
  emit .callDeleteAccount
  let _ ← checkedCall p.deleteAccountR "Delete failed"
  emit (.print "Delete resource group...\n")
  emit .callDeleteGroup
  let _ ← checkedCall p.deleteGroupR "Delete failed"
  pure ()

/-- The `main` function: the eleven management steps in order, then the
interactive prompt, and deletion only on the exact input `y`. -/
def main (p : Provider) (input : String) : M Unit := do
  registerResourceProvider p
  checkAccountAvailability p
  createResourceGroup p
  createStorageAccount p
  getStorageAccountProperties p
  listStorageAccountsByResourceGroup p
  listStorageAccountsBySubscription p
  let keys ← getStorageKeys p
  regenStorageKey p keys
  updateStorageAccount p
  listUsage p
  emit (.print ("Press enter to delete the resource group \x27" ++ groupName ++ "\x27... (y/n)"))
  emit (.readLine input)
  if input = "y" then
    delete p
  else
    pure ()

/-- A whole process run: `init` followed by `main`. -/
def runProgram (env : Env) (oauthR tokenR : Except String Unit) (p : Provider)
    (input : String) : M Unit := do
  init env oauthR tokenR
  main p input

/-! ### Derived notions used by the verification -/

/-- Every event the computation emits satisfies `P`. -/
def EventsSat {α : Type} (P : Event → Prop) (x : M α) : Prop := ∀ e ∈ x.events, P e

/-- The call name of an event, when the event is a remote call. -/
def Event.callOf : Event → Option CallName
  | .callRegister => some .register
  | .callCheckName => some .checkName
  | .callCreateGroup => some .createGroup
  | .callCreateAccount => some .createAccount
  | .callGetProps => some .getProps
  | .callListByGroup => some .listByGroup
  | .callListAccounts => some .listAccounts
  | .callListKeys => some .listKeys
  | .callRegenKey _ => some .regenKey
  | .callUpdate _ => some .update
  | .callListUsage => some .listUsage
  | .callDeleteAccount => some .deleteAccount
  | .callDeleteGroup => some .deleteGroup
  | _ => none

/-- The remote calls a run issues, in order. -/
def M.callSeq {α : Type} (x : M α) : List CallName := x.events.filterMap Event.callOf

/-- `FrontOf xs ys` says `xs` is an initial segment of `ys`. -/
def FrontOf {γ : Type} (xs ys : List γ) : Prop := ∃ zs, xs ++ zs = ys

/-- `CallsUpTo x l`: the calls `x` issues form an initial segment of `l`, and
all of `l` when `x` returns normally. -/
def CallsUpTo {α : Type} (x : M α) (l : List CallName) : Prop :=
  FrontOf x.callSeq l ∧ (x.isOk = true → x.callSeq = l)

/-- The eleven management calls, in the order of the script. -/
def mainCallOrder : List CallName :=
  [.register, .checkName, .createGroup, .createAccount, .getProps,
   .listByGroup, .listAccounts, .listKeys, .regenKey, .update, .listUsage]

/-- The full remote-call order, deletion included. -/
def fullCallOrder : List CallName :=
  mainCallOrder ++ [.deleteAccount, .deleteGroup]

def goodEnv : Env := ⟨"sub-id", "tenant-id", "client-id", "client-secret"⟩

def okAccount : Account :=
  ⟨some "golangrocksonazure", some "account-id", some "Standard_LRS",
   some "Microsoft.Storage/storageAccounts", some "westus", some "Succeeded"⟩

def okKeysResult : AccountListKeysResult :=
  ⟨some [⟨some "key1", some "key1value", "FULL"⟩, ⟨some "key2", some "key2value", "FULL"⟩]⟩

def regenKeysResult : AccountListKeysResult :=
  ⟨some [⟨some "key1", some "regenerated1", "FULL"⟩, ⟨some "key2", some "key2value", "FULL"⟩]⟩

/-- A provider for which every call succeeds with well-formed payloads. -/
def okProvider : Provider where
  registerR := .ok ()
  checkNameR := .ok ⟨some true, "", none⟩
  createGroupR := .ok ()
  createAccountR := .ok ()
  getPropsR := .ok okAccount
  listByGroupR := .ok ⟨some [okAccount]⟩
  listR := .ok ⟨some [okAccount]⟩
  listKeysR := .ok okKeysResult
  regenKeyR := .ok regenKeysResult
  updateR := .ok ()
  listUsageR := .ok ⟨some [⟨some ⟨some "StorageAccounts"⟩, some 5, some 250⟩]⟩
  deleteAccountR := .ok ()
  deleteGroupR := .ok ()

/-- The four client assignments performed by `createClients`, in order. -/
def assignEvents (s : String) : List Event :=
  [.assignClient "resourcesClient" s, .assignClient "storageClient" s,
   .assignClient "groupClient" s, .assignClient "usageClient" s]

/-- A key whose name and value pointers are non-nil and whose value has at
least 5 bytes: exactly the keys the printing code can display without
panicking. -/
def WellKey (k : AccountKey) : Prop :=
  k.keyName.isSome = true ∧ k.value.isSome = true ∧ 5 ≤ (k.value.getD "").length

instance (k : AccountKey) : Decidable (WellKey k) := by
  unfold WellKey
  infer_instance

/-- The two lines printed for one key by the listing loop. -/
def renderKey (k : AccountKey) : List Event :=
  [.print (keyLine (k.keyName.getD "") ((k.value.getD "").take 5) k.permissions),
   .print "\t----------------\n"]

/-- The loop body of `getStorageKeys`, named for reasoning about the loop. -/
def keyBody (key : AccountKey) : M Unit := do
  let kn ← deref key.keyName
  let v ← deref key.value
  let tv ← takeBytes v 5
  emit (.print (keyLine kn tv key.permissions))
  emit (.print "\t----------------\n")

/-- Is the event one of the global client assignments? -/
def Event.isAssign : Event → Bool
  | .assignClient _ _ => true
  | _ => false

/-- Is the call one of the two delete calls? -/
def isDeleteCall : CallName → Bool
  | .deleteAccount => true
  | .deleteGroup => true
  | _ => false

/-- No console read occurs among the events of this computation. -/
def NoRead (e : Event) : Prop := ∀ s, e ≠ Event.readLine s

/-- The availability response the counterexample to C1 uses: the name is
reported unavailable but the `Message` pointer is nil, as the response type
allows. -/
def cexUnavailable : Provider :=
  { okProvider with checkNameR := .ok ⟨some false, "AlreadyExists", none⟩ }

/-- The key list of the counterexample to C6: its only key has a non-nil
value of 6 bytes, but a nil key-name pointer. -/
def badKeyList : List AccountKey := [⟨none, some "abcdef", "FULL"⟩]

/-- A provider whose key-list response satisfies the sufficient condition
stated by the claim, yet whose keys cannot be printed. -/
def cexNilKeyName : Provider := { okProvider with listKeysR := .ok ⟨some badKeyList⟩ }

/-! ### Basic laws of the trace monad -/

section Laws

variable {α β : Type}

@[simp] theorem withPre_ok (t : List Event) (a : α) (t' : List Event) :
    M.withPre t (M.ok a t') = M.ok a (t ++ t') := rfl

@[simp] theorem withPre_exit (t : List Event) (c : Nat) (t' : List Event) :
    M.withPre t (M.exit c t' : M α) = M.exit c (t ++ t') := rfl

@[simp] theorem withPre_crash (t : List Event) (t' : List Event) :
    M.withPre t (M.crash t' : M α) = M.crash (t ++ t') := rfl

@[simp] theorem bind_eq (x : M α) (f : α → M β) : x >>= f = M.bind x f := rfl

@[simp] theorem pure_eq (a : α) : (pure a : M α) = M.ok a [] := rfl

@[simp] theorem bind_ok (a : α) (t : List Event) (f : α → M β) :
    M.bind (M.ok a t) f = (f a).withPre t := rfl

@[simp] theorem bind_exit (c : Nat) (t : List Event) (f : α → M β) :
    M.bind (M.exit c t) f = M.exit c t := rfl

@[simp] theorem bind_crash (t : List Event) (f : α → M β) :
    M.bind (M.crash t) f = M.crash t := rfl

@[simp] theorem events_ok (a : α) (t : List Event) : (M.ok a t).events = t := rfl

@[simp] theorem events_exit (c : Nat) (t : List Event) : (M.exit c t : M α).events = t := rfl

@[simp] theorem events_crash (t : List Event) : (M.crash t : M α).events = t := rfl

@[simp] theorem events_withPre (t : List Event) (x : M α) :
    (M.withPre t x).events = t ++ x.events := by
  cases x <;> rfl

@[simp] theorem outcome_ok (a : α) (t : List Event) : (M.ok a t).outcome = .code 0 := rfl

@[simp] theorem outcome_exit (c : Nat) (t : List Event) :
    (M.exit c t : M α).outcome = .code c := rfl

@[simp] theorem outcome_crash (t : List Event) : (M.crash t : M α).outcome = .panicked := rfl

@[simp] theorem isOk_ok (a : α) (t : List Event) : (M.ok a t).isOk = true := rfl

@[simp] theorem isOk_exit (c : Nat) (t : List Event) : (M.exit c t : M α).isOk = false := rfl

@[simp] theorem isOk_crash (t : List Event) : (M.crash t : M α).isOk = false := rfl

@[simp] theorem isCrash_ok (a : α) (t : List Event) : (M.ok a t).isCrash = false := rfl

@[simp] theorem isCrash_exit (c : Nat) (t : List Event) :
    (M.exit c t : M α).isCrash = false := rfl

@[simp] theorem isCrash_crash (t : List Event) : (M.crash t : M α).isCrash = true := rfl

@[simp] theorem emit_eq (e : Event) : emit e = M.ok () [e] := rfl

@[simp] theorem exitNow_eq (c : Nat) : (exitNow c : M α) = M.exit c [] := rfl

@[simp] theorem crashNow_eq : (crashNow : M α) = M.crash [] := rfl

@[simp] theorem deref_some (a : α) : deref (some a) = M.ok a [] := rfl

@[simp] theorem deref_none : (deref none : M α) = M.crash [] := rfl

@[simp] theorem nth_nil (n : Nat) : (nth [] n : M α) = M.crash [] := by
  cases n <;> rfl

@[simp] theorem nth_cons_zero (a : α) (as : List α) : nth (a :: as) 0 = M.ok a [] := rfl

@[simp] theorem nth_cons_succ (a : α) (as : List α) (n : Nat) :
    nth (a :: as) (n + 1) = nth as n := rfl

@[simp] theorem forEach_nil (f : α → M Unit) : forEach [] f = M.ok () [] := rfl

@[simp] theorem forEach_cons (a : α) (as : List α) (f : α → M Unit) :
    forEach (a :: as) f = M.bind (f a) (fun _ => forEach as f) := rfl

@[simp] theorem errOf_ok (a : α) : errOf (Except.ok a : Except String α) = none := rfl

@[simp] theorem errOf_error (e : String) : errOf (Except.error e : Except String α) = some e := rfl

@[simp] theorem onErrorFail_none (m : String) : onErrorFail none m = M.ok () [] := rfl

@[simp] theorem onErrorFail_some (e m : String) :
    onErrorFail (some e) m = M.exit 1 [.print (m ++ ": " ++ e ++ "\n")] := rfl

@[simp] theorem checkedCall_ok (a : α) (m : String) :
    checkedCall (Except.ok a : Except String α) m = M.ok a [] := rfl

@[simp] theorem checkedCall_error (e : String) (m : String) :
    checkedCall (Except.error e : Except String α) m
      = M.exit 1 [.print (m ++ ": " ++ e ++ "\n")] := rfl

end Laws

/-! ### Which events a computation can emit -/

section EventsSat

variable {α β : Type}

theorem eventsSat_bind {P : Event → Prop} {x : M α} {f : α → M β}
    (hx : EventsSat P x) (hf : ∀ a, EventsSat P (f a)) : EventsSat P (x >>= f) := by
  cases x with
  | ok a t =>
    intro e he
    simp only [bind_eq, bind_ok, events_withPre, List.mem_append] at he
    rcases he with he | he
    · exact hx e he
    · exact hf a e he
  | exit c t => exact hx
  | crash t => exact hx

theorem eventsSat_pure {P : Event → Prop} (a : α) : EventsSat P (pure a : M α) := by
  intro e he; simp at he

theorem eventsSat_emit {P : Event → Prop} {e : Event} (h : P e) : EventsSat P (emit e) := by
  intro e' he'; simp at he'; rwa [he']

theorem eventsSat_exitNow {P : Event → Prop} (c : Nat) : EventsSat P (exitNow c : M α) := by
  intro e he; simp at he

theorem eventsSat_crashNow {P : Event → Prop} : EventsSat P (crashNow : M α) := by
  intro e he; simp at he

theorem eventsSat_deref {P : Event → Prop} (o : Option α) : EventsSat P (deref o) := by
  cases o <;> intro e he <;> simp at he

theorem eventsSat_nth {P : Event → Prop} (l : List α) (n : Nat) : EventsSat P (nth l n) := by
  induction l generalizing n with
  | nil => intro e he; simp at he
  | cons a as ih =>
    cases n with
    | zero => intro e he; simp at he
    | succ n => simpa using ih n

theorem eventsSat_takeBytes {P : Event → Prop} (s : String) (n : Nat) :
    EventsSat P (takeBytes s n) := by
  unfold takeBytes
  split <;> intro e he <;> simp at he

theorem eventsSat_forEach {P : Event → Prop} {l : List α} {f : α → M Unit}
    (h : ∀ a, EventsSat P (f a)) : EventsSat P (forEach l f) := by
  induction l with
  | nil => exact eventsSat_pure ()
  | cons a as ih =>
    rw [forEach_cons, show M.bind (f a) (fun _ => forEach as f)
      = f a >>= fun _ => forEach as f from rfl]
    exact eventsSat_bind (h a) (fun _ => ih)

theorem eventsSat_onErrorFail {P : Event → Prop} (err : Option String) (m : String)
    (hpr : ∀ s, P (.print s)) : EventsSat P (onErrorFail err m) := by
  cases err with
  | none => exact fun e he => by simp at he
  | some e =>
    intro e' he'
    simp at he'
    rw [he']; exact hpr _

theorem eventsSat_checkedCall {P : Event → Prop} (r : Except String α) (m : String)
    (hpr : ∀ s, P (.print s)) : EventsSat P (checkedCall r m) := by
  cases r with
  | ok a => intro e he; simp at he
  | error e =>
    intro e' he'
    simp at he'
    rw [he']; exact hpr _

theorem eventsSat_getEnvVarOrExit {P : Event → Prop} (n v : String)
    (hpr : ∀ s, P (.print s)) : EventsSat P (getEnvVarOrExit n v) := by
  unfold getEnvVarOrExit
  split
  · intro e he
    simp at he
    rw [he]; exact hpr _
  · exact eventsSat_pure v

theorem eventsSat_mono {P Q : Event → Prop} {x : M α} (h : EventsSat P x)
    (hpq : ∀ e, P e → Q e) : EventsSat Q x :=
  fun e he => hpq e (h e he)

end EventsSat

/-! ### Events of each step -/

section StepEvents

variable {P : Event → Prop} (p : Provider)

theorem eventsSat_register (hpr : ∀ s, P (.print s)) (hc : P .callRegister) :
    EventsSat P (registerResourceProvider p) := by
  unfold registerResourceProvider
  exact eventsSat_bind (eventsSat_emit (hpr _)) fun _ =>
    eventsSat_bind (eventsSat_emit hc) fun _ =>
    eventsSat_bind (eventsSat_checkedCall _ _ hpr) fun _ => eventsSat_pure ()

theorem eventsSat_checkAvail (hpr : ∀ s, P (.print s)) (hc : P .callCheckName) :
    EventsSat P (checkAccountAvailability p) := by
  unfold checkAccountAvailability
  refine eventsSat_bind (eventsSat_emit (hpr _)) fun _ =>
    eventsSat_bind (eventsSat_emit hc) fun _ =>
    eventsSat_bind (eventsSat_checkedCall _ _ hpr) fun r =>
    eventsSat_bind (eventsSat_deref _) fun avail => ?_
  split
  · exact eventsSat_emit (hpr _)
  · exact eventsSat_bind (eventsSat_deref _) fun _ =>
      eventsSat_bind (eventsSat_emit (hpr _)) fun _ =>
      eventsSat_bind (eventsSat_emit (hpr _)) fun _ => eventsSat_exitNow 1

theorem eventsSat_createGroup (hpr : ∀ s, P (.print s)) (hc : P .callCreateGroup) :
    EventsSat P (createResourceGroup p) := by
  unfold createResourceGroup
  exact eventsSat_bind (eventsSat_emit (hpr _)) fun _ =>
    eventsSat_bind (eventsSat_emit hc) fun _ =>
    eventsSat_bind (eventsSat_checkedCall _ _ hpr) fun _ => eventsSat_pure ()

theorem eventsSat_createAccount (hpr : ∀ s, P (.print s)) (hc : P .callCreateAccount) :
    EventsSat P (createStorageAccount p) := by
  unfold createStorageAccount
  exact eventsSat_bind (eventsSat_emit (hpr _)) fun _ =>
    eventsSat_bind (eventsSat_emit hc) fun _ =>
    eventsSat_bind (eventsSat_checkedCall _ _ hpr) fun _ => eventsSat_pure ()

theorem eventsSat_getProps (hpr : ∀ s, P (.print s)) (hc : P .callGetProps) :
    EventsSat P (getStorageAccountProperties p) := by
  unfold getStorageAccountProperties
  exact eventsSat_bind (eventsSat_emit (hpr _)) fun _ =>
    eventsSat_bind (eventsSat_emit hc) fun _ =>
    eventsSat_bind (eventsSat_checkedCall _ _ hpr) fun _ =>
    eventsSat_bind (eventsSat_deref _) fun _ =>
    eventsSat_bind (eventsSat_emit (hpr _)) fun _ =>
    eventsSat_bind (eventsSat_deref _) fun _ =>
    eventsSat_bind (eventsSat_emit (hpr _)) fun _ =>
    eventsSat_bind (eventsSat_deref _) fun _ =>
    eventsSat_bind (eventsSat_emit (hpr _)) fun _ =>
    eventsSat_bind (eventsSat_deref _) fun _ =>
    eventsSat_bind (eventsSat_emit (hpr _)) fun _ =>
    eventsSat_bind (eventsSat_deref _) fun _ =>
    eventsSat_bind (eventsSat_emit (hpr _)) fun _ =>
    eventsSat_bind (eventsSat_deref _) fun _ => eventsSat_emit (hpr _)

theorem eventsSat_printAccountList (l : AccountListResult) (hpr : ∀ s, P (.print s)) :
    EventsSat P (printAccountList l) := by
  unfold printAccountList
  exact eventsSat_bind (eventsSat_deref _) fun _ =>
    eventsSat_forEach fun acc =>
      eventsSat_bind (eventsSat_deref _) fun _ => eventsSat_emit (hpr _)

theorem eventsSat_listByGroup (hpr : ∀ s, P (.print s)) (hc : P .callListByGroup) :
    EventsSat P (listStorageAccountsByResourceGroup p) := by
  unfold listStorageAccountsByResourceGroup
  exact eventsSat_bind (eventsSat_emit (hpr _)) fun _ =>
    eventsSat_bind (eventsSat_emit hc) fun _ =>
    eventsSat_bind (eventsSat_checkedCall _ _ hpr) fun l =>
    eventsSat_printAccountList l hpr

theorem eventsSat_listBySub (hpr : ∀ s, P (.print s)) (hc : P .callListAccounts) :
    EventsSat P (listStorageAccountsBySubscription p) := by
  unfold listStorageAccountsBySubscription
  exact eventsSat_bind (eventsSat_emit (hpr _)) fun _ =>
    eventsSat_bind (eventsSat_emit hc) fun _ =>
    eventsSat_bind (eventsSat_checkedCall _ _ hpr) fun l =>
    eventsSat_printAccountList l hpr

theorem eventsSat_getKeys (hpr : ∀ s, P (.print s)) (hc : P .callListKeys) :
    EventsSat P (getStorageKeys p) := by
  unfold getStorageKeys
  exact eventsSat_bind (eventsSat_emit (hpr _)) fun _ =>
    eventsSat_bind (eventsSat_emit hc) fun _ =>
    eventsSat_bind (eventsSat_checkedCall _ _ hpr) fun keys =>
    eventsSat_bind (eventsSat_emit (hpr _)) fun _ =>
    eventsSat_bind (eventsSat_deref _) fun ks =>
    eventsSat_bind (eventsSat_forEach fun k =>
      eventsSat_bind (eventsSat_deref _) fun _ =>
      eventsSat_bind (eventsSat_deref _) fun _ =>
      eventsSat_bind (eventsSat_takeBytes _ _) fun _ =>
      eventsSat_bind (eventsSat_emit (hpr _)) fun _ => eventsSat_emit (hpr _)) fun _ =>
    eventsSat_pure keys

theorem eventsSat_regen (keys : AccountListKeysResult) (hpr : ∀ s, P (.print s))
    (hc : ∀ o, P (.callRegenKey o)) : EventsSat P (regenStorageKey p keys) := by
  unfold regenStorageKey
  exact eventsSat_bind (eventsSat_emit (hpr _)) fun _ =>
    eventsSat_bind (eventsSat_deref _) fun _ =>
    eventsSat_bind (eventsSat_nth _ _) fun k0 =>
    eventsSat_bind (eventsSat_emit (hc _)) fun _ =>
    eventsSat_bind (eventsSat_checkedCall _ _ hpr) fun _ =>
    eventsSat_bind (eventsSat_emit (hpr _)) fun _ =>
    eventsSat_bind (eventsSat_deref _) fun _ =>
    eventsSat_bind (eventsSat_nth _ _) fun _ =>
    eventsSat_bind (eventsSat_deref _) fun _ =>
    eventsSat_bind (eventsSat_deref _) fun _ =>
    eventsSat_bind (eventsSat_takeBytes _ _) fun _ => eventsSat_emit (hpr _)

theorem eventsSat_update (hpr : ∀ s, P (.print s)) (hc : P (.callUpdate fixedTags)) :
    EventsSat P (updateStorageAccount p) := by
  unfold updateStorageAccount
  exact eventsSat_bind (eventsSat_emit (hpr _)) fun _ =>
    eventsSat_bind (eventsSat_emit hc) fun _ =>
    eventsSat_bind (eventsSat_checkedCall _ _ hpr) fun _ => eventsSat_pure ()

theorem eventsSat_usage (hpr : ∀ s, P (.print s)) (hc : P .callListUsage) :
    EventsSat P (listUsage p) := by
  unfold listUsage
  exact eventsSat_bind (eventsSat_emit (hpr _)) fun _ =>
    eventsSat_bind (eventsSat_emit hc) fun _ =>
    eventsSat_bind (eventsSat_checkedCall _ _ hpr) fun _ =>
    eventsSat_bind (eventsSat_deref _) fun _ =>
    eventsSat_forEach fun u =>
      eventsSat_bind (eventsSat_deref _) fun _ =>
      eventsSat_bind (eventsSat_deref _) fun _ =>
      eventsSat_bind (eventsSat_deref _) fun _ =>
      eventsSat_bind (eventsSat_deref _) fun _ => eventsSat_emit (hpr _)

theorem eventsSat_delete (hpr : ∀ s, P (.print s)) (hc1 : P .callDeleteAccount)
    (hc2 : P .callDeleteGroup) : EventsSat P (delete p) := by
  unfold delete
  exact eventsSat_bind (eventsSat_emit (hpr _)) fun _ =>
    eventsSat_bind (eventsSat_emit hc1) fun _ =>
    eventsSat_bind (eventsSat_checkedCall _ _ hpr) fun _ =>
    eventsSat_bind (eventsSat_emit (hpr _)) fun _ =>
    eventsSat_bind (eventsSat_emit hc2) fun _ =>
    eventsSat_bind (eventsSat_checkedCall _ _ hpr) fun _ => eventsSat_pure ()

theorem eventsSat_createClients (s : String) (hassign : ∀ w, P (.assignClient w s)) :
    EventsSat P (createClients s) := by
  unfold createClients
  exact eventsSat_bind (eventsSat_emit (hassign _)) fun _ =>
    eventsSat_bind (eventsSat_emit (hassign _)) fun _ =>
    eventsSat_bind (eventsSat_emit (hassign _)) fun _ => eventsSat_emit (hassign _)

theorem eventsSat_init (env : Env) (oauthR tokenR : Except String Unit)
    (hpr : ∀ s, P (.print s))
    (hassign : ∀ w s, P (.assignClient w s)) :
    EventsSat P (init env oauthR tokenR) := by
  unfold init
  exact eventsSat_bind (eventsSat_getEnvVarOrExit _ _ hpr) fun sub =>
    eventsSat_bind (eventsSat_getEnvVarOrExit _ _ hpr) fun _ =>
    eventsSat_bind (eventsSat_onErrorFail _ _ hpr) fun _ =>
    eventsSat_bind (eventsSat_getEnvVarOrExit _ _ hpr) fun _ =>
    eventsSat_bind (eventsSat_getEnvVarOrExit _ _ hpr) fun _ =>
    eventsSat_bind (eventsSat_onErrorFail _ _ hpr) fun _ =>
    eventsSat_createClients sub (fun w => hassign w sub)

theorem eventsSat_main (input : String) (hpr : ∀ s, P (.print s))
    (hread : P (.readLine input))
    (hc1 : P .callRegister) (hc2 : P .callCheckName) (hc3 : P .callCreateGroup)
    (hc4 : P .callCreateAccount) (hc5 : P .callGetProps) (hc6 : P .callListByGroup)
    (hc7 : P .callListAccounts) (hc8 : P .callListKeys)
    (hc9 : ∀ o, P (.callRegenKey o)) (hc10 : P (.callUpdate fixedTags))
    (hc11 : P .callListUsage)
    (hdel : input = "y" → P .callDeleteAccount ∧ P .callDeleteGroup) :
    EventsSat P (main p input) := by
  unfold main
  refine eventsSat_bind (eventsSat_register p hpr hc1) fun _ =>
    eventsSat_bind (eventsSat_checkAvail p hpr hc2) fun _ =>
    eventsSat_bind (eventsSat_createGroup p hpr hc3) fun _ =>
    eventsSat_bind (eventsSat_createAccount p hpr hc4) fun _ =>
    eventsSat_bind (eventsSat_getProps p hpr hc5) fun _ =>
    eventsSat_bind (eventsSat_listByGroup p hpr hc6) fun _ =>
    eventsSat_bind (eventsSat_listBySub p hpr hc7) fun _ =>
    eventsSat_bind (eventsSat_getKeys p hpr hc8) fun keys =>
    eventsSat_bind (eventsSat_regen p keys hpr hc9) fun _ =>
    eventsSat_bind (eventsSat_update p hpr hc10) fun _ =>
    eventsSat_bind (eventsSat_usage p hpr hc11) fun _ =>
    eventsSat_bind (eventsSat_emit (hpr _)) fun _ =>
    eventsSat_bind (eventsSat_emit hread) fun _ => ?_
  by_cases hy : input = "y"
  · rw [if_pos hy]
    exact eventsSat_delete p hpr (hdel hy).1 (hdel hy).2
  · rw [if_neg hy]
    exact eventsSat_pure ()

theorem eventsSat_run (env : Env) (oauthR tokenR : Except String Unit) (input : String)
    (hpr : ∀ s, P (.print s))
    (hassign : ∀ w s, P (.assignClient w s))
    (hread : P (.readLine input))
    (hc1 : P .callRegister) (hc2 : P .callCheckName) (hc3 : P .callCreateGroup)
    (hc4 : P .callCreateAccount) (hc5 : P .callGetProps) (hc6 : P .callListByGroup)
    (hc7 : P .callListAccounts) (hc8 : P .callListKeys)
    (hc9 : ∀ o, P (.callRegenKey o)) (hc10 : P (.callUpdate fixedTags))
    (hc11 : P .callListUsage)
    (hdel : input = "y" → P .callDeleteAccount ∧ P .callDeleteGroup) :
    EventsSat P (runProgram env oauthR tokenR p input) := by
  unfold runProgram
  exact eventsSat_bind (eventsSat_init env oauthR tokenR hpr hassign) fun _ =>
    eventsSat_main p input hpr hread hc1 hc2 hc3 hc4 hc5 hc6 hc7 hc8 hc9 hc10 hc11 hdel

end StepEvents

/-! ### The sequence of remote calls of a run -/

theorem frontOf_nil {γ : Type} (l : List γ) : FrontOf [] l := ⟨l, rfl⟩

theorem frontOf_refl {γ : Type} (l : List γ) : FrontOf l l := ⟨[], List.append_nil l⟩

theorem frontOf_append {γ : Type} (l1 : List γ) {xs l2 : List γ} (h : FrontOf xs l2) :
    FrontOf (l1 ++ xs) (l1 ++ l2) := by
  obtain ⟨zs, hz⟩ := h
  exact ⟨zs, by rw [List.append_assoc, hz]⟩

theorem frontOf_extend {γ : Type} {xs l1 : List γ} (l2 : List γ) (h : FrontOf xs l1) :
    FrontOf xs (l1 ++ l2) := by
  obtain ⟨zs, hz⟩ := h
  exact ⟨zs ++ l2, by rw [← List.append_assoc, hz]⟩

theorem frontOf_mem {γ : Type} {xs ys : List γ} (h : FrontOf xs ys) {a : γ} (ha : a ∈ xs) :
    a ∈ ys := by
  obtain ⟨zs, hz⟩ := h
  rw [← hz]
  exact List.mem_append_left _ ha

section CallSeq

variable {α β : Type}

theorem callsUpTo_of_eq {x : M α} {l : List CallName} (h : x.callSeq = l) : CallsUpTo x l :=
  ⟨h ▸ frontOf_refl _, fun _ => h⟩

theorem callsUpTo_cast {x : M α} {l l' : List CallName} (h : CallsUpTo x l) (he : l = l') :
    CallsUpTo x l' := he ▸ h

theorem frontOf_cast {γ : Type} {xs l l' : List γ} (h : FrontOf xs l) (he : l = l') :
    FrontOf xs l' := he ▸ h

theorem filterMap_eq_nil_of {γ δ : Type} {l : List γ} {f : γ → Option δ}
    (h : ∀ a ∈ l, f a = none) : l.filterMap f = [] := by
  induction l with
  | nil => rfl
  | cons a as ih =>
    rw [List.filterMap_cons, h a (by simp)]
    exact ih fun x hx => h x (by simp [hx])

theorem callSeq_eq_nil {x : M α} (h : EventsSat (fun e => e.callOf = none) x) :
    x.callSeq = [] :=
  filterMap_eq_nil_of h

theorem isOk_bind_ok {a : α} {t : List Event} {f : α → M β} :
    (M.bind (M.ok a t) f).isOk = (f a).isOk := by
  cases h : f a <;> simp [M.bind, h, M.withPre, M.isOk]

theorem callSeq_bind_ok {a : α} {t : List Event} {f : α → M β} :
    (M.bind (M.ok a t) f).callSeq = (M.ok a t).callSeq ++ (f a).callSeq := by
  simp [M.callSeq, M.bind, List.filterMap_append]

theorem callsUpTo_bind {x : M α} {f : α → M β} {l1 l2 : List CallName}
    (hx : CallsUpTo x l1) (hf : ∀ a, CallsUpTo (f a) l2) :
    CallsUpTo (x >>= f) (l1 ++ l2) := by
  cases x with
  | ok a t =>
    have h1 : (M.ok a t).callSeq = l1 := hx.2 rfl
    constructor
    · rw [bind_eq, callSeq_bind_ok, h1]
      exact frontOf_append l1 (hf a).1
    · intro hok
      rw [bind_eq, isOk_bind_ok] at hok
      rw [bind_eq, callSeq_bind_ok, h1, (hf a).2 hok]
  | exit c t =>
    exact ⟨frontOf_extend l2 hx.1, fun hok => by simp [M.isOk] at hok⟩
  | crash t =>
    exact ⟨frontOf_extend l2 hx.1, fun hok => by simp [M.isOk] at hok⟩

theorem frontOf_bind {x : M α} {f : α → M β} {l1 l2 : List CallName}
    (hx : CallsUpTo x l1) (hf : ∀ a, FrontOf (f a).callSeq l2) :
    FrontOf (x >>= f).callSeq (l1 ++ l2) := by
  cases x with
  | ok a t =>
    rw [bind_eq, callSeq_bind_ok, hx.2 rfl]
    exact frontOf_append l1 (hf a)
  | exit c t => exact frontOf_extend l2 hx.1
  | crash t => exact frontOf_extend l2 hx.1

theorem callsUpTo_print (s : String) : CallsUpTo (emit (.print s)) [] :=
  callsUpTo_of_eq (by simp [M.callSeq, Event.callOf])

theorem callsUpTo_read (s : String) : CallsUpTo (emit (.readLine s)) [] :=
  callsUpTo_of_eq (by simp [M.callSeq, Event.callOf])

theorem callsUpTo_call {c : Event} {n : CallName} (hc : c.callOf = some n) :
    CallsUpTo (emit c) [n] :=
  callsUpTo_of_eq (by simp [M.callSeq, hc])

theorem callsUpTo_checkedCall (r : Except String α) (m : String) :
    CallsUpTo (checkedCall r m) [] := by
  cases r <;> exact callsUpTo_of_eq (by simp [M.callSeq, Event.callOf])

theorem callsUpTo_pure (a : α) : CallsUpTo (pure a : M α) [] :=
  callsUpTo_of_eq (by simp [M.callSeq])

theorem callsUpTo_deref (o : Option α) : CallsUpTo (deref o) [] := by
  cases o <;> exact callsUpTo_of_eq (by simp [M.callSeq])

theorem callsUpTo_nth (l : List α) (n : Nat) : CallsUpTo (nth l n) [] := by
  apply callsUpTo_of_eq
  apply callSeq_eq_nil
  exact eventsSat_nth l n

theorem callsUpTo_exitNow (c : Nat) : CallsUpTo (exitNow c : M α) [] :=
  callsUpTo_of_eq (by simp [M.callSeq])

end CallSeq

/-! ### Per-step call sequences and the fixed order -/

section StepCalls

variable (p : Provider)

theorem callsUpTo_register_step : CallsUpTo (registerResourceProvider p) [.register] := by
  unfold registerResourceProvider
  exact callsUpTo_cast
    (callsUpTo_bind (callsUpTo_print _) fun _ =>
      callsUpTo_bind (callsUpTo_call (c := .callRegister) rfl) fun _ =>
      callsUpTo_bind (callsUpTo_checkedCall p.registerR _) fun _ => callsUpTo_pure ())
    (by simp)

theorem callsUpTo_checkAvail_step : CallsUpTo (checkAccountAvailability p) [.checkName] := by
  unfold checkAccountAvailability
  exact callsUpTo_cast
    (callsUpTo_bind (callsUpTo_print _) fun _ =>
      callsUpTo_bind (callsUpTo_call (c := .callCheckName) rfl) fun _ =>
      callsUpTo_bind (callsUpTo_checkedCall p.checkNameR _) fun r =>
      callsUpTo_bind (callsUpTo_deref _) fun avail =>
      callsUpTo_of_eq (callSeq_eq_nil (by
        split
        · exact eventsSat_emit rfl
        · exact eventsSat_bind (eventsSat_deref _) fun _ =>
            eventsSat_bind (eventsSat_emit rfl) fun _ =>
            eventsSat_bind (eventsSat_emit rfl) fun _ => eventsSat_exitNow 1)))
    (by simp)

theorem callsUpTo_createGroup_step : CallsUpTo (createResourceGroup p) [.createGroup] := by
  unfold createResourceGroup
  exact callsUpTo_cast
    (callsUpTo_bind (callsUpTo_print _) fun _ =>
      callsUpTo_bind (callsUpTo_call (c := .callCreateGroup) rfl) fun _ =>
      callsUpTo_bind (callsUpTo_checkedCall p.createGroupR _) fun _ => callsUpTo_pure ())
    (by simp)

theorem callsUpTo_createAccount_step : CallsUpTo (createStorageAccount p) [.createAccount] := by
  unfold createStorageAccount
  exact callsUpTo_cast
    (callsUpTo_bind (callsUpTo_print _) fun _ =>
      callsUpTo_bind (callsUpTo_call (c := .callCreateAccount) rfl) fun _ =>
      callsUpTo_bind (callsUpTo_checkedCall p.createAccountR _) fun _ => callsUpTo_pure ())
    (by simp)

theorem callsUpTo_getProps_step : CallsUpTo (getStorageAccountProperties p) [.getProps] := by
  unfold getStorageAccountProperties
  exact callsUpTo_cast
    (callsUpTo_bind (callsUpTo_print _) fun _ =>
      callsUpTo_bind (callsUpTo_call (c := .callGetProps) rfl) fun _ =>
      callsUpTo_bind (callsUpTo_checkedCall p.getPropsR _) fun a =>
      callsUpTo_of_eq (callSeq_eq_nil
        (eventsSat_bind (eventsSat_deref _) fun _ =>
          eventsSat_bind (eventsSat_emit rfl) fun _ =>
          eventsSat_bind (eventsSat_deref _) fun _ =>
          eventsSat_bind (eventsSat_emit rfl) fun _ =>
          eventsSat_bind (eventsSat_deref _) fun _ =>
          eventsSat_bind (eventsSat_emit rfl) fun _ =>
          eventsSat_bind (eventsSat_deref _) fun _ =>
          eventsSat_bind (eventsSat_emit rfl) fun _ =>
          eventsSat_bind (eventsSat_deref _) fun _ =>
          eventsSat_bind (eventsSat_emit rfl) fun _ =>
          eventsSat_bind (eventsSat_deref _) fun _ => eventsSat_emit rfl)))
    (by simp)

theorem callSeq_printAccountList (l : AccountListResult) : (printAccountList l).callSeq = [] :=
  callSeq_eq_nil (eventsSat_printAccountList l fun _ => rfl)

theorem callsUpTo_listByGroup_step :
    CallsUpTo (listStorageAccountsByResourceGroup p) [.listByGroup] := by
  unfold listStorageAccountsByResourceGroup
  exact callsUpTo_cast
    (callsUpTo_bind (callsUpTo_print _) fun _ =>
      callsUpTo_bind (callsUpTo_call (c := .callListByGroup) rfl) fun _ =>
      callsUpTo_bind (callsUpTo_checkedCall p.listByGroupR _) fun l =>
      callsUpTo_of_eq (callSeq_printAccountList l))
    (by simp)

theorem callsUpTo_listBySub_step :
    CallsUpTo (listStorageAccountsBySubscription p) [.listAccounts] := by
  unfold listStorageAccountsBySubscription
  exact callsUpTo_cast
    (callsUpTo_bind (callsUpTo_print _) fun _ =>
      callsUpTo_bind (callsUpTo_call (c := .callListAccounts) rfl) fun _ =>
      callsUpTo_bind (callsUpTo_checkedCall p.listR _) fun l =>
      callsUpTo_of_eq (callSeq_printAccountList l))
    (by simp)

theorem callsUpTo_getKeys_step : CallsUpTo (getStorageKeys p) [.listKeys] := by
  unfold getStorageKeys
  exact callsUpTo_cast
    (callsUpTo_bind (callsUpTo_print _) fun _ =>
      callsUpTo_bind (callsUpTo_call (c := .callListKeys) rfl) fun _ =>
      callsUpTo_bind (callsUpTo_checkedCall p.listKeysR _) fun keys =>
      callsUpTo_of_eq (callSeq_eq_nil
        (eventsSat_bind (eventsSat_emit rfl) fun _ =>
          eventsSat_bind (eventsSat_deref _) fun _ =>
          eventsSat_bind (eventsSat_forEach fun k =>
            eventsSat_bind (eventsSat_deref _) fun _ =>
            eventsSat_bind (eventsSat_deref _) fun _ =>
            eventsSat_bind (eventsSat_takeBytes _ _) fun _ =>
            eventsSat_bind (eventsSat_emit rfl) fun _ => eventsSat_emit rfl) fun _ =>
          eventsSat_pure keys)))
    (by simp)

theorem callsUpTo_regen_step (keys : AccountListKeysResult) :
    CallsUpTo (regenStorageKey p keys) [.regenKey] := by
  unfold regenStorageKey
  exact callsUpTo_cast
    (callsUpTo_bind (callsUpTo_print _) fun _ =>
      callsUpTo_bind (callsUpTo_deref _) fun ks =>
      callsUpTo_bind (callsUpTo_nth ks 0) fun k0 =>
      callsUpTo_bind (callsUpTo_call (c := .callRegenKey k0.keyName) rfl) fun _ =>
      callsUpTo_bind (callsUpTo_checkedCall p.regenKeyR _) fun nk =>
      callsUpTo_of_eq (callSeq_eq_nil
        (eventsSat_bind (eventsSat_emit rfl) fun _ =>
          eventsSat_bind (eventsSat_deref _) fun _ =>
          eventsSat_bind (eventsSat_nth _ _) fun _ =>
          eventsSat_bind (eventsSat_deref _) fun _ =>
          eventsSat_bind (eventsSat_deref _) fun _ =>
          eventsSat_bind (eventsSat_takeBytes _ _) fun _ => eventsSat_emit rfl)))
    (by simp)

theorem callsUpTo_update_step : CallsUpTo (updateStorageAccount p) [.update] := by
  unfold updateStorageAccount
  exact callsUpTo_cast
    (callsUpTo_bind (callsUpTo_print _) fun _ =>
      callsUpTo_bind (callsUpTo_call (c := .callUpdate fixedTags) rfl) fun _ =>
      callsUpTo_bind (callsUpTo_checkedCall p.updateR _) fun _ => callsUpTo_pure ())
    (by simp)

theorem callsUpTo_usage_step : CallsUpTo (listUsage p) [.listUsage] := by
  unfold listUsage
  exact callsUpTo_cast
    (callsUpTo_bind (callsUpTo_print _) fun _ =>
      callsUpTo_bind (callsUpTo_call (c := .callListUsage) rfl) fun _ =>
      callsUpTo_bind (callsUpTo_checkedCall p.listUsageR _) fun ul =>
      callsUpTo_of_eq (callSeq_eq_nil
        (eventsSat_bind (eventsSat_deref _) fun _ =>
          eventsSat_forEach fun u =>
            eventsSat_bind (eventsSat_deref _) fun _ =>
            eventsSat_bind (eventsSat_deref _) fun _ =>
            eventsSat_bind (eventsSat_deref _) fun _ =>
            eventsSat_bind (eventsSat_deref _) fun _ => eventsSat_emit rfl)))
    (by simp)

theorem callsUpTo_delete_step : CallsUpTo (delete p) [.deleteAccount, .deleteGroup] := by
  unfold delete
  exact callsUpTo_cast
    (callsUpTo_bind (callsUpTo_print _) fun _ =>
      callsUpTo_bind (callsUpTo_call (c := .callDeleteAccount) rfl) fun _ =>
      callsUpTo_bind (callsUpTo_checkedCall p.deleteAccountR _) fun _ =>
      callsUpTo_bind (callsUpTo_print _) fun _ =>
      callsUpTo_bind (callsUpTo_call (c := .callDeleteGroup) rfl) fun _ =>
      callsUpTo_bind (callsUpTo_checkedCall p.deleteGroupR _) fun _ => callsUpTo_pure ())
    (by simp)

theorem callsUpTo_init (env : Env) (oauthR tokenR : Except String Unit) :
    CallsUpTo (init env oauthR tokenR) [] :=
  callsUpTo_of_eq (callSeq_eq_nil
    (eventsSat_init env oauthR tokenR (fun _ => rfl) (fun _ _ => rfl)))

/-- Any run of `main` issues its remote calls as an initial segment of the
fixed order. -/
theorem frontOf_main (input : String) : FrontOf (main p input).callSeq fullCallOrder := by
  unfold main
  exact frontOf_cast
    (frontOf_bind (callsUpTo_register_step p) fun _ =>
      frontOf_bind (callsUpTo_checkAvail_step p) fun _ =>
      frontOf_bind (callsUpTo_createGroup_step p) fun _ =>
      frontOf_bind (callsUpTo_createAccount_step p) fun _ =>
      frontOf_bind (callsUpTo_getProps_step p) fun _ =>
      frontOf_bind (callsUpTo_listByGroup_step p) fun _ =>
      frontOf_bind (callsUpTo_listBySub_step p) fun _ =>
      frontOf_bind (callsUpTo_getKeys_step p) fun keys =>
      frontOf_bind (callsUpTo_regen_step p keys) fun _ =>
      frontOf_bind (callsUpTo_update_step p) fun _ =>
      frontOf_bind (callsUpTo_usage_step p) fun _ =>
      frontOf_bind (callsUpTo_print _) fun _ =>
      frontOf_bind (callsUpTo_read input) fun _ =>
      show FrontOf (if input = "y" then delete p else pure ()).callSeq
          [CallName.deleteAccount, CallName.deleteGroup] by
        by_cases hy : input = "y"
        · rw [if_pos hy]
          exact (callsUpTo_delete_step p).1
        · rw [if_neg hy]
          exact frontOf_nil _)
    (by simp [fullCallOrder, mainCallOrder])

/-- When the prompt answer is not the exact token `y`, the calls of `main`
stay within the eleven management calls: no delete call can occur. -/
theorem frontOf_main_notY (input : String) (hy : input ≠ "y") :
    FrontOf (main p input).callSeq mainCallOrder := by
  unfold main
  exact frontOf_cast
    (frontOf_bind (callsUpTo_register_step p) fun _ =>
      frontOf_bind (callsUpTo_checkAvail_step p) fun _ =>
      frontOf_bind (callsUpTo_createGroup_step p) fun _ =>
      frontOf_bind (callsUpTo_createAccount_step p) fun _ =>
      frontOf_bind (callsUpTo_getProps_step p) fun _ =>
      frontOf_bind (callsUpTo_listByGroup_step p) fun _ =>
      frontOf_bind (callsUpTo_listBySub_step p) fun _ =>
      frontOf_bind (callsUpTo_getKeys_step p) fun keys =>
      frontOf_bind (callsUpTo_regen_step p keys) fun _ =>
      frontOf_bind (callsUpTo_update_step p) fun _ =>
      frontOf_bind (callsUpTo_usage_step p) fun _ =>
      frontOf_bind (callsUpTo_print _) fun _ =>
      frontOf_bind (callsUpTo_read input) fun _ =>
      show FrontOf (if input = "y" then delete p else pure ()).callSeq ([] : List CallName) by
        rw [if_neg hy]
        exact frontOf_refl _)
    (by simp [mainCallOrder])

theorem frontOf_run (env : Env) (oauthR tokenR : Except String Unit) (input : String) :
    FrontOf (runProgram env oauthR tokenR p input).callSeq fullCallOrder := by
  unfold runProgram
  exact frontOf_cast
    (frontOf_bind (callsUpTo_init env oauthR tokenR) fun _ => frontOf_main p input)
    (by simp)

theorem frontOf_run_notY (env : Env) (oauthR tokenR : Except String Unit) (input : String)
    (hy : input ≠ "y") :
    FrontOf (runProgram env oauthR tokenR p input).callSeq mainCallOrder := by
  unfold runProgram
  exact frontOf_cast
    (frontOf_bind (callsUpTo_init env oauthR tokenR) fun _ =>
      frontOf_main_notY p input hy)
    (by simp)

theorem mem_callSeq_of_mem_events {α : Type} {x : M α} {e : Event} {n : CallName}
    (he : e ∈ x.events) (hn : e.callOf = some n) : n ∈ x.callSeq :=
  List.mem_filterMap.mpr ⟨e, he, hn⟩

end StepCalls

/-! ### A canonical successful run -/

/-! ### Evaluation of `init` -/

theorem init_ok_eval {env : Env} (h1 : env.subscriptionID ≠ "") (h2 : env.tenantID ≠ "")
    (h3 : env.clientID ≠ "") (h4 : env.clientSecret ≠ "") :
    init env (.ok ()) (.ok ()) = M.ok () (assignEvents env.subscriptionID) := by
  unfold init getEnvVarOrExit createClients
  simp [h1, h2, h3, h4, assignEvents]

/-- Either `init` succeeds having emitted exactly the four client
assignments, or it aborts having emitted only console prints. -/
theorem init_split (env : Env) (o t0 : Except String Unit) :
    init env o t0 = M.ok () (assignEvents env.subscriptionID) ∨
    ((init env o t0).isOk = false ∧ EventsSat (fun e => ∃ s, e = .print s) (init env o t0)) := by
  by_cases h1 : env.subscriptionID = ""
  · right
    have hv : init env o t0
        = M.exit 1 [.print "Missing environment variable AZURE_SUBSCRIPTION_ID\n"] := by
      unfold init getEnvVarOrExit
      simp [h1]
    rw [hv]
    exact ⟨rfl, fun e he => by simp at he; exact ⟨_, he⟩⟩
  by_cases h2 : env.tenantID = ""
  · right
    have hv : init env o t0
        = M.exit 1 [.print "Missing environment variable AZURE_TENANT_ID\n"] := by
      unfold init getEnvVarOrExit
      simp [h1, h2]
    rw [hv]
    exact ⟨rfl, fun e he => by simp at he; exact ⟨_, he⟩⟩
  rcases o with eo | uo
  · right
    have hv : init env (.error eo) t0
        = M.exit 1 [.print ("OAuthConfigForTenant failed: " ++ eo ++ "\n")] := by
      unfold init getEnvVarOrExit
      simp [h1, h2]
    rw [hv]
    exact ⟨rfl, fun e he => by simp at he; exact ⟨_, he⟩⟩
  by_cases h3 : env.clientID = ""
  · right
    have hv : init env (.ok uo) t0
        = M.exit 1 [.print "Missing environment variable AZURE_CLIENT_ID\n"] := by
      unfold init getEnvVarOrExit
      simp [h1, h2, h3]
    rw [hv]
    exact ⟨rfl, fun e he => by simp at he; exact ⟨_, he⟩⟩
  by_cases h4 : env.clientSecret = ""
  · right
    have hv : init env (.ok uo) t0
        = M.exit 1 [.print "Missing environment variable AZURE_CLIENT_SECRET\n"] := by
      unfold init getEnvVarOrExit
      simp [h1, h2, h3, h4]
    rw [hv]
    exact ⟨rfl, fun e he => by simp at he; exact ⟨_, he⟩⟩
  rcases t0 with et | ut
  · right
    have hv : init env (.ok uo) (.error et)
        = M.exit 1 [.print ("NewServicePrincipalToken failed: " ++ et ++ "\n")] := by
      unfold init getEnvVarOrExit
      simp [h1, h2, h3, h4]
    rw [hv]
    exact ⟨rfl, fun e he => by simp at he; exact ⟨_, he⟩⟩
  · left
    cases uo
    cases ut
    exact init_ok_eval h1 h2 h3 h4

/-! ### Membership in the events of a sequence -/

section MemBind

variable {α β : Type}

theorem mem_events_bind {x : M α} {f : α → M β} {e : Event} :
    e ∈ (x >>= f).events ↔
      e ∈ x.events ∨ ∃ a t, x = M.ok a t ∧ e ∈ (f a).events := by
  cases x with
  | ok a t =>
    simp only [bind_eq, bind_ok, events_withPre, List.mem_append, events_ok]
    constructor
    · rintro (h | h)
      · exact Or.inl h
      · exact Or.inr ⟨a, t, rfl, h⟩
    · rintro (h | ⟨a', t', he, h⟩)
      · exact Or.inl h
      · cases he
        exact Or.inr h
  | exit c t => simp
  | crash t => simp

theorem mem_events_bind_right {x : M α} {f : α → M β} {e : Event} {a : α} {t : List Event}
    (hx : x = M.ok a t) (he : e ∈ (f a).events) : e ∈ (x >>= f).events := by
  subst hx
  simp only [bind_eq, bind_ok, events_withPre, List.mem_append]
  exact Or.inr he

end MemBind

/-! ### The key-printing loop -/

theorem getStorageKeys_loop (p : Provider) :
    getStorageKeys p = (do
      emit (.print "Get storage account keys...\n")
      emit .callListKeys
      let keys ← checkedCall p.listKeysR "ListKeys failed"
      emit (.print ("\x27" ++ accountName ++ "\x27 storage account keys\n"))
      let ks ← deref keys.keys
      forEach ks keyBody
      pure keys) := rfl

theorem keyBody_eval {k : AccountKey} (h : WellKey k) : keyBody k = M.ok () (renderKey k) := by
  obtain ⟨hn, hv, hl⟩ := h
  obtain ⟨kn, hkn⟩ := Option.isSome_iff_exists.mp hn
  obtain ⟨v, hvv⟩ := Option.isSome_iff_exists.mp hv
  rw [hvv] at hl
  simp only [Option.getD_some] at hl
  unfold keyBody takeBytes
  simp [hkn, hvv, hl, renderKey]

theorem keyBody_crash {k : AccountKey} (h : ¬ WellKey k) : (keyBody k).isCrash = true := by
  unfold WellKey at h
  push_neg at h
  unfold keyBody takeBytes
  rcases hkn : k.keyName with _ | kn
  · simp
  rcases hvv : k.value with _ | v
  · simp [hkn]
  have hl : ¬ 5 ≤ v.length := by
    have h5 := h (by rw [hkn]; rfl) (by rw [hvv]; rfl)
    rw [hvv, Option.getD_some] at h5
    omega
  simp [hkn, hvv, hl]

theorem forEach_keyBody_eval {ks : List AccountKey} (h : ∀ k ∈ ks, WellKey k) :
    forEach ks keyBody = M.ok () (ks.flatMap renderKey) := by
  induction ks with
  | nil => rfl
  | cons k ks ih =>
    rw [forEach_cons, keyBody_eval (h k (by simp)), ih fun x hx => h x (by simp [hx])]
    simp

theorem forEach_keyBody_crash {ks : List AccountKey} (h : ∃ k ∈ ks, ¬ WellKey k) :
    (forEach ks keyBody).isCrash = true := by
  induction ks with
  | nil => simp at h
  | cons k ks ih =>
    by_cases hk : WellKey k
    · rw [forEach_cons, keyBody_eval hk]
      obtain ⟨k', hk', hbad⟩ := h
      rcases List.mem_cons.mp hk' with rfl | hmem
      · exact absurd hk hbad
      · have := ih ⟨k', hmem, hbad⟩
        cases hfe : forEach ks keyBody <;> rw [hfe] at this <;> simp_all
    · rw [forEach_cons]
      have := keyBody_crash hk
      cases hb : keyBody k <;> rw [hb] at this <;> simp_all

/-! ### Miscellaneous event classifiers -/

theorem filter_eq_nil_of {γ : Type} {l : List γ} {q : γ → Bool}
    (h : ∀ a ∈ l, q a = false) : l.filter q = [] := by
  induction l with
  | nil => rfl
  | cons a as ih =>
    rw [List.filter_cons, h a (by simp)]
    exact ih fun x hx => h x (by simp [hx])

theorem frontOf_two {γ : Type} {l : List γ} {a b : γ} (h : FrontOf l [a, b]) :
    l = [] ∨ l = [a] ∨ l = [a, b] := by
  obtain ⟨zs, hz⟩ := h
  rcases l with _ | ⟨x, l⟩
  · exact Or.inl rfl
  rcases l with _ | ⟨y, l⟩
  · simp at hz
    exact Or.inr (Or.inl (by rw [hz.1]))
  rcases l with _ | ⟨z, l⟩
  · simp at hz
    exact Or.inr (Or.inr (by rw [hz.1, hz.2.1]))
  · exfalso
    simp at hz

/-! ### Reaching the prompt -/

theorem noRead_register (p : Provider) : EventsSat NoRead (registerResourceProvider p) := by
  refine eventsSat_register p ?_ ?_ <;> intros <;> simp [NoRead]

theorem noRead_checkAvail (p : Provider) : EventsSat NoRead (checkAccountAvailability p) := by
  refine eventsSat_checkAvail p ?_ ?_ <;> intros <;> simp [NoRead]

theorem noRead_createGroup (p : Provider) : EventsSat NoRead (createResourceGroup p) := by
  refine eventsSat_createGroup p ?_ ?_ <;> intros <;> simp [NoRead]

theorem noRead_createAccount (p : Provider) : EventsSat NoRead (createStorageAccount p) := by
  refine eventsSat_createAccount p ?_ ?_ <;> intros <;> simp [NoRead]

theorem noRead_getProps (p : Provider) : EventsSat NoRead (getStorageAccountProperties p) := by
  refine eventsSat_getProps p ?_ ?_ <;> intros <;> simp [NoRead]

theorem noRead_listByGroup (p : Provider) :
    EventsSat NoRead (listStorageAccountsByResourceGroup p) := by
  refine eventsSat_listByGroup p ?_ ?_ <;> intros <;> simp [NoRead]

theorem noRead_listBySub (p : Provider) :
    EventsSat NoRead (listStorageAccountsBySubscription p) := by
  refine eventsSat_listBySub p ?_ ?_ <;> intros <;> simp [NoRead]

theorem noRead_getKeys (p : Provider) : EventsSat NoRead (getStorageKeys p) := by
  refine eventsSat_getKeys p ?_ ?_ <;> intros <;> simp [NoRead]

theorem noRead_regen (p : Provider) (keys : AccountListKeysResult) :
    EventsSat NoRead (regenStorageKey p keys) := by
  refine eventsSat_regen p keys ?_ ?_ <;> intros <;> simp [NoRead]

theorem noRead_update (p : Provider) : EventsSat NoRead (updateStorageAccount p) := by
  refine eventsSat_update p ?_ ?_ <;> intros <;> simp [NoRead]

theorem noRead_usage (p : Provider) : EventsSat NoRead (listUsage p) := by
  refine eventsSat_usage p ?_ ?_ <;> intros <;> simp [NoRead]

theorem noRead_init (env : Env) (o t0 : Except String Unit) :
    EventsSat NoRead (init env o t0) := by
  refine eventsSat_init env o t0 ?_ ?_ <;> intros <;> simp [NoRead]

theorem callDeleteAccount_mem_delete (p : Provider) :
    Event.callDeleteAccount ∈ (delete p).events := by
  unfold delete
  cases hr : p.deleteAccountR <;> simp [hr]

/-- If the run ever reads the affirmative token at the prompt, then the
prompt was reached with input `y` and the delete-account call is issued. -/
theorem main_readLine (p : Provider) (input : String)
    (h : Event.readLine "y" ∈ (main p input).events) :
    input = "y" ∧ Event.callDeleteAccount ∈ (main p input).events := by
  have hne : ∀ {α : Type} {x : M α}, EventsSat NoRead x →
      Event.readLine "y" ∈ x.events → False :=
    fun hx hm => hx _ hm "y" rfl
  unfold main at h ⊢
  rcases mem_events_bind.mp h with h | ⟨a1, t1, hx1, h⟩
  · exact (hne (noRead_register p) h).elim
  rcases mem_events_bind.mp h with h | ⟨a2, t2, hx2, h⟩
  · exact (hne (noRead_checkAvail p) h).elim
  rcases mem_events_bind.mp h with h | ⟨a3, t3, hx3, h⟩
  · exact (hne (noRead_createGroup p) h).elim
  rcases mem_events_bind.mp h with h | ⟨a4, t4, hx4, h⟩
  · exact (hne (noRead_createAccount p) h).elim
  rcases mem_events_bind.mp h with h | ⟨a5, t5, hx5, h⟩
  · exact (hne (noRead_getProps p) h).elim
  rcases mem_events_bind.mp h with h | ⟨a6, t6, hx6, h⟩
  · exact (hne (noRead_listByGroup p) h).elim
  rcases mem_events_bind.mp h with h | ⟨a7, t7, hx7, h⟩
  · exact (hne (noRead_listBySub p) h).elim
  rcases mem_events_bind.mp h with h | ⟨a8, t8, hx8, h⟩
  · exact (hne (noRead_getKeys p) h).elim
  rcases mem_events_bind.mp h with h | ⟨a9, t9, hx9, h⟩
  · exact (hne (noRead_regen p a8) h).elim
  rcases mem_events_bind.mp h with h | ⟨a10, t10, hx10, h⟩
  · exact (hne (noRead_update p) h).elim
  rcases mem_events_bind.mp h with h | ⟨a11, t11, hx11, h⟩
  · exact (hne (noRead_usage p) h).elim
  rcases mem_events_bind.mp h with h | ⟨a12, t12, hx12, h⟩
  · simp at h
  rcases mem_events_bind.mp h with h | ⟨a13, t13, hx13, h⟩
  · simp at h
    subst h
    refine ⟨rfl, ?_⟩
    refine mem_events_bind_right hx1 ?_
    refine mem_events_bind_right hx2 ?_
    refine mem_events_bind_right hx3 ?_
    refine mem_events_bind_right hx4 ?_
    refine mem_events_bind_right hx5 ?_
    refine mem_events_bind_right hx6 ?_
    refine mem_events_bind_right hx7 ?_
    refine mem_events_bind_right hx8 ?_
    refine mem_events_bind_right hx9 ?_
    refine mem_events_bind_right hx10 ?_
    refine mem_events_bind_right hx11 ?_
    refine mem_events_bind_right rfl ?_
    refine mem_events_bind_right rfl ?_
    rw [if_pos rfl]
    exact callDeleteAccount_mem_delete p
  · by_cases hy : input = "y"
    · subst hy
      refine ⟨rfl, ?_⟩
      refine mem_events_bind_right hx1 ?_
      refine mem_events_bind_right hx2 ?_
      refine mem_events_bind_right hx3 ?_
      refine mem_events_bind_right hx4 ?_
      refine mem_events_bind_right hx5 ?_
      refine mem_events_bind_right hx6 ?_
      refine mem_events_bind_right hx7 ?_
      refine mem_events_bind_right hx8 ?_
      refine mem_events_bind_right hx9 ?_
      refine mem_events_bind_right hx10 ?_
      refine mem_events_bind_right hx11 ?_
      refine mem_events_bind_right rfl ?_
      refine mem_events_bind_right rfl ?_
      rw [if_pos rfl]
      exact callDeleteAccount_mem_delete p
    · rw [if_neg hy] at h
      simp at h

/-- Lifting `main_readLine` to whole runs. -/
theorem run_readLine (env : Env) (o t0 : Except String Unit) (p : Provider) (input : String)
    (h : Event.readLine "y" ∈ (runProgram env o t0 p input).events) :
    input = "y" ∧ Event.callDeleteAccount ∈ (runProgram env o t0 p input).events := by
  unfold runProgram at h ⊢
  rcases mem_events_bind.mp h with h | ⟨a0, t0e, hx0, h⟩
  · exact ((noRead_init env o t0) _ h "y" rfl).elim
  · obtain ⟨hy, hmem⟩ := main_readLine p input h
    exact ⟨hy, mem_events_bind_right hx0 hmem⟩

/-! ### Missing environment variables -/

theorem missingEnv_run (env : Env) (o t0 : Except String Unit) (p : Provider) (input : String)
    (h : env.subscriptionID = "" ∨ env.tenantID = "" ∨ env.clientID = ""
      ∨ env.clientSecret = "") :
    (runProgram env o t0 p input).outcome = .code 1
    ∧ (runProgram env o t0 p input).callSeq = []
    ∧ (o = .ok () →
        (env.subscriptionID = "" ∧
          Event.print "Missing environment variable AZURE_SUBSCRIPTION_ID\n"
            ∈ (runProgram env o t0 p input).events) ∨
        (env.tenantID = "" ∧
          Event.print "Missing environment variable AZURE_TENANT_ID\n"
            ∈ (runProgram env o t0 p input).events) ∨
        (env.clientID = "" ∧
          Event.print "Missing environment variable AZURE_CLIENT_ID\n"
            ∈ (runProgram env o t0 p input).events) ∨
        (env.clientSecret = "" ∧
          Event.print "Missing environment variable AZURE_CLIENT_SECRET\n"
            ∈ (runProgram env o t0 p input).events)) := by
  by_cases h1 : env.subscriptionID = ""
  · have hv : runProgram env o t0 p input
        = M.exit 1 [.print "Missing environment variable AZURE_SUBSCRIPTION_ID\n"] := by
      unfold runProgram init getEnvVarOrExit
      simp [h1]
    rw [hv]
    exact ⟨rfl, by simp [M.callSeq, Event.callOf], fun _ => Or.inl ⟨h1, by simp⟩⟩
  by_cases h2 : env.tenantID = ""
  · have hv : runProgram env o t0 p input
        = M.exit 1 [.print "Missing environment variable AZURE_TENANT_ID\n"] := by
      unfold runProgram init getEnvVarOrExit
      simp [h1, h2]
    rw [hv]
    exact ⟨rfl, by simp [M.callSeq, Event.callOf], fun _ => Or.inr (Or.inl ⟨h2, by simp⟩)⟩
  rcases o with eo | uo
  · have hv : runProgram env (.error eo) t0 p input
        = M.exit 1 [.print ("OAuthConfigForTenant failed: " ++ eo ++ "\n")] := by
      unfold runProgram init getEnvVarOrExit
      simp [h1, h2]
    rw [hv]
    exact ⟨rfl, by simp [M.callSeq, Event.callOf], fun hcontra => by simp at hcontra⟩
  cases uo
  by_cases h3 : env.clientID = ""
  · have hv : runProgram env (.ok ()) t0 p input
        = M.exit 1 [.print "Missing environment variable AZURE_CLIENT_ID\n"] := by
      unfold runProgram init getEnvVarOrExit
      simp [h1, h2, h3]
    rw [hv]
    exact ⟨rfl, by simp [M.callSeq, Event.callOf],
      fun _ => Or.inr (Or.inr (Or.inl ⟨h3, by simp⟩))⟩
  · have h4 : env.clientSecret = "" := by
      rcases h with h | h | h | h
      · exact absurd h h1
      · exact absurd h h2
      · exact absurd h h3
      · exact h
    have hv : runProgram env (.ok ()) t0 p input
        = M.exit 1 [.print "Missing environment variable AZURE_CLIENT_SECRET\n"] := by
      unfold runProgram init getEnvVarOrExit
      simp [h1, h2, h3, h4]
    rw [hv]
    exact ⟨rfl, by simp [M.callSeq, Event.callOf],
      fun _ => Or.inr (Or.inr (Or.inr ⟨h4, by simp⟩))⟩

/-! ### The claims -/

/-- C4: for every environment in which at least one of the four required
variables (tenant ID, client ID, client secret, subscription ID) is unset,
the script exits with status 1 before issuing any remote call, and — when
the local OAuth-config library call does not itself fail first — prints a
descriptive message naming a missing variable. -/
theorem C4_missingEnv (env : Env) (o t0 : Except String Unit) (p : Provider) (input : String)
    (h : env.subscriptionID = "" ∨ env.tenantID = "" ∨ env.clientID = ""
      ∨ env.clientSecret = "") :
    (runProgram env o t0 p input).outcome = .code 1
    ∧ (runProgram env o t0 p input).callSeq = []
    ∧ (o = .ok () →
        (env.subscriptionID = "" ∧
          Event.print "Missing environment variable AZURE_SUBSCRIPTION_ID\n"
            ∈ (runProgram env o t0 p input).events) ∨
        (env.tenantID = "" ∧
          Event.print "Missing environment variable AZURE_TENANT_ID\n"
            ∈ (runProgram env o t0 p input).events) ∨
        (env.clientID = "" ∧
          Event.print "Missing environment variable AZURE_CLIENT_ID\n"
            ∈ (runProgram env o t0 p input).events) ∨
        (env.clientSecret = "" ∧
          Event.print "Missing environment variable AZURE_CLIENT_SECRET\n"
            ∈ (runProgram env o t0 p input).events)) :=
  missingEnv_run env o t0 p input h

theorem C4_missingEnv_witness :
    (runProgram ⟨"", "tenant-id", "client-id", "client-secret"⟩ (.ok ()) (.ok ())
      okProvider "n").outcome = .code 1
    ∧ (runProgram ⟨"", "tenant-id", "client-id", "client-secret"⟩ (.ok ()) (.ok ())
      okProvider "n").callSeq = [] := by
  have h := C4_missingEnv ⟨"", "tenant-id", "client-id", "client-secret"⟩ (.ok ()) (.ok ())
    okProvider "n" (Or.inl rfl)
  exact ⟨h.1, h.2.1⟩

/-- C5: the process exit code is 0 on full successful completion — whether
the user confirms (`y`), declines (`n`) or just presses enter — and 1 on any
missing environment variable and on any remote call failure, at every one of
the thirteen call sites. -/
theorem C5_exitCodes :
    (runProgram goodEnv (.ok ()) (.ok ()) okProvider "y").outcome = .code 0
    ∧ (runProgram goodEnv (.ok ()) (.ok ()) okProvider "n").outcome = .code 0
    ∧ (runProgram goodEnv (.ok ()) (.ok ()) okProvider "").outcome = .code 0
    ∧ (∀ env o t0 p input,
        (env.subscriptionID = "" ∨ env.tenantID = "" ∨ env.clientID = ""
          ∨ env.clientSecret = "") →
        (runProgram env o t0 p input).outcome = .code 1)
    ∧ (∀ e input, (runProgram goodEnv (.ok ()) (.ok ())
        { okProvider with registerR := .error e } input).outcome = .code 1)
    ∧ (∀ e input, (runProgram goodEnv (.ok ()) (.ok ())
        { okProvider with checkNameR := .error e } input).outcome = .code 1)
    ∧ (∀ e input, (runProgram goodEnv (.ok ()) (.ok ())
        { okProvider with createGroupR := .error e } input).outcome = .code 1)
    ∧ (∀ e input, (runProgram goodEnv (.ok ()) (.ok ())
        { okProvider with createAccountR := .error e } input).outcome = .code 1)
    ∧ (∀ e input, (runProgram goodEnv (.ok ()) (.ok ())
        { okProvider with getPropsR := .error e } input).outcome = .code 1)
    ∧ (∀ e input, (runProgram goodEnv (.ok ()) (.ok ())
        { okProvider with listByGroupR := .error e } input).outcome = .code 1)
    ∧ (∀ e input, (runProgram goodEnv (.ok ()) (.ok ())
        { okProvider with listR := .error e } input).outcome = .code 1)
    ∧ (∀ e input, (runProgram goodEnv (.ok ()) (.ok ())
        { okProvider with listKeysR := .error e } input).outcome = .code 1)
    ∧ (∀ e input, (runProgram goodEnv (.ok ()) (.ok ())
        { okProvider with regenKeyR := .error e } input).outcome = .code 1)
    ∧ (∀ e input, (runProgram goodEnv (.ok ()) (.ok ())
        { okProvider with updateR := .error e } input).outcome = .code 1)
    ∧ (∀ e input, (runProgram goodEnv (.ok ()) (.ok ())
        { okProvider with listUsageR := .error e } input).outcome = .code 1)
    ∧ (∀ e, (runProgram goodEnv (.ok ()) (.ok ())
        { okProvider with deleteAccountR := .error e } "y").outcome = .code 1)
    ∧ (∀ e, (runProgram goodEnv (.ok ()) (.ok ())
        { okProvider with deleteGroupR := .error e } "y").outcome = .code 1) :=
  ⟨by decide, by decide, by decide,
   fun env o t0 p input h => (missingEnv_run env o t0 p input h).1,
   fun _ _ => rfl, fun _ _ => rfl, fun _ _ => rfl, fun _ _ => rfl, fun _ _ => rfl,
   fun _ _ => rfl, fun _ _ => rfl, fun _ _ => rfl, fun _ _ => rfl, fun _ _ => rfl,
   fun _ _ => rfl, fun _ => rfl, fun _ => rfl⟩

theorem C5_exitCodes_witness :
    (runProgram ⟨"sub-id", "", "client-id", "client-secret"⟩ (.ok ()) (.ok ())
      okProvider "y").outcome = .code 1 :=
  C5_exitCodes.2.2.2.1 ⟨"sub-id", "", "client-id", "client-secret"⟩ (.ok ()) (.ok ())
    okProvider "y" (Or.inr (Or.inl rfl))

/-- C8: the tag-update call always sends exactly the two fixed key/value
pairs ("who rocks" -> "golang", "where" -> "on azure"): every update call
event in every run carries exactly this tag set, the update step always
emits it, and the step reads no prior tag state. -/
theorem C8_fixedTags :
    (∀ env o t0 p input t, Event.callUpdate t ∈ (runProgram env o t0 p input).events →
      t = fixedTags)
    ∧ (∀ p, Event.callUpdate fixedTags ∈ (updateStorageAccount p).events)
    ∧ fixedTags = [("who rocks", "golang"), ("where", "on azure")] := by
  refine ⟨?_, ?_, rfl⟩
  · intro env o t0 p input t hmem
    have hsat := eventsSat_run (P := fun e => ∀ t', e = .callUpdate t' → t' = fixedTags)
      p env o t0 input
      (fun s t' h => by simp at h) (fun w s t' h => by simp at h)
      (fun t' h => by simp at h)
      (fun t' h => by simp at h) (fun t' h => by simp at h) (fun t' h => by simp at h)
      (fun t' h => by simp at h) (fun t' h => by simp at h) (fun t' h => by simp at h)
      (fun t' h => by simp at h) (fun t' h => by simp at h)
      (fun o' t' h => by simp at h)
      (fun t' h => by simp at h; exact h.symm)
      (fun t' h => by simp at h)
      (fun _ => ⟨fun t' h => by simp at h, fun t' h => by simp at h⟩)
    exact hsat _ hmem t rfl
  · intro p
    unfold updateStorageAccount
    cases hr : p.updateR <;> simp [hr]

theorem C8_fixedTags_witness :
    fixedTags = fixedTags ∧ Event.callUpdate fixedTags ∈ (updateStorageAccount okProvider).events :=
  ⟨C8_fixedTags.1 goodEnv (.ok ()) (.ok ()) okProvider "y" fixedTags (by decide),
   C8_fixedTags.2.1 okProvider⟩

/-- Helper: an event distinct from every client assignment is not counted by
`Event.isAssign`. -/
theorem isAssign_false_of {e : Event} (h : ∀ w s, e ≠ .assignClient w s) :
    e.isAssign = false := by
  cases e <;> first
    | rfl
    | exact absurd rfl (h _ _)

/-- C2: the delete calls are issued only when the interactive prompt receives
the exact token `y`; on any other input (empty included) no delete call is
ever issued; when they are issued, the account delete strictly precedes the
group delete. -/
theorem C2_deleteGated (env : Env) (o t0 : Except String Unit) (p : Provider) (input : String) :
    (input ≠ "y" → Event.callDeleteAccount ∉ (runProgram env o t0 p input).events
      ∧ Event.callDeleteGroup ∉ (runProgram env o t0 p input).events)
    ∧ (Event.readLine "y" ∈ (runProgram env o t0 p input).events →
        input = "y" ∧ Event.callDeleteAccount ∈ (runProgram env o t0 p input).events)
    ∧ ((runProgram env o t0 p input).callSeq.filter isDeleteCall = []
        ∨ (runProgram env o t0 p input).callSeq.filter isDeleteCall = [.deleteAccount]
        ∨ (runProgram env o t0 p input).callSeq.filter isDeleteCall
            = [.deleteAccount, .deleteGroup])
    ∧ (runProgram goodEnv (.ok ()) (.ok ()) okProvider "y").callSeq = fullCallOrder
    ∧ (runProgram goodEnv (.ok ()) (.ok ()) okProvider "n").callSeq = mainCallOrder
    ∧ (runProgram goodEnv (.ok ()) (.ok ()) okProvider "").callSeq = mainCallOrder := by
  refine ⟨?_, run_readLine env o t0 p input, ?_, by decide, by decide, by decide⟩
  · intro hy
    constructor <;> intro hmem
    · have hn := mem_callSeq_of_mem_events hmem (rfl : Event.callDeleteAccount.callOf = _)
      have hfull := frontOf_mem (frontOf_run_notY p env o t0 input hy) hn
      simp [mainCallOrder] at hfull
    · have hn := mem_callSeq_of_mem_events hmem (rfl : Event.callDeleteGroup.callOf = _)
      have hfull := frontOf_mem (frontOf_run_notY p env o t0 input hy) hn
      simp [mainCallOrder] at hfull
  · obtain ⟨zs, hz⟩ := frontOf_run p env o t0 input
    have hfil : (runProgram env o t0 p input).callSeq.filter isDeleteCall
        ++ zs.filter isDeleteCall = fullCallOrder.filter isDeleteCall := by
      rw [← List.filter_append, hz]
    have hfull : fullCallOrder.filter isDeleteCall
        = [CallName.deleteAccount, CallName.deleteGroup] := by decide
    exact frontOf_two ⟨zs.filter isDeleteCall, by rw [hfil, hfull]⟩

theorem C2_deleteGated_witness :
    Event.callDeleteAccount ∉ (runProgram goodEnv (.ok ()) (.ok ()) okProvider "n").events
    ∧ Event.callDeleteGroup ∉ (runProgram goodEnv (.ok ()) (.ok ()) okProvider "n").events :=
  (C2_deleteGated goodEnv (.ok ()) (.ok ()) okProvider "n").1 (by decide)

/-- C10: the four client handles are assigned exactly once, all before the
first remote call, and no step performs any further assignment: every event
trace splits into a call-free initialization prefix and an assignment-free
remainder, and whenever any remote call occurs at all, the assignments seen
are exactly the four initial ones, built from the same subscription id. -/
theorem C10_clientsOnce (env : Env) (o t0 : Except String Unit) (p : Provider) (input : String) :
    (∃ tr1 tr2, (runProgram env o t0 p input).events = tr1 ++ tr2
      ∧ (∀ e ∈ tr1, e.callOf = none)
      ∧ (∀ e ∈ tr2, ∀ w s, e ≠ .assignClient w s))
    ∧ ((∃ e ∈ (runProgram env o t0 p input).events, e.callOf ≠ none) →
        (runProgram env o t0 p input).events.filter Event.isAssign
          = assignEvents env.subscriptionID) := by
  have hmainNoAssign : EventsSat (fun e => ∀ w s, e ≠ .assignClient w s) (main p input) := by
    refine eventsSat_main p input ?_ ?_ ?_ ?_ ?_ ?_ ?_ ?_ ?_ ?_ ?_ ?_ ?_
      (fun _ => ⟨?_, ?_⟩) <;> intros <;> simp
  rcases init_split env o t0 with hok | ⟨hnotok, hsat⟩
  · have hev : (runProgram env o t0 p input).events
        = assignEvents env.subscriptionID ++ (main p input).events := by
      unfold runProgram
      rw [bind_eq, hok]
      simp
    constructor
    · refine ⟨assignEvents env.subscriptionID, (main p input).events, hev, ?_, hmainNoAssign⟩
      intro e he
      simp [assignEvents] at he
      rcases he with rfl | rfl | rfl | rfl <;> rfl
    · intro _
      rw [hev, List.filter_append]
      have h1 : (assignEvents env.subscriptionID).filter Event.isAssign
          = assignEvents env.subscriptionID := by
        simp [assignEvents, Event.isAssign]
      have h2 : (main p input).events.filter Event.isAssign = [] :=
        filter_eq_nil_of fun e he => isAssign_false_of (hmainNoAssign e he)
      rw [h1, h2, List.append_nil]
  · have hev : (runProgram env o t0 p input).events = (init env o t0).events := by
      unfold runProgram
      cases hi : init env o t0 with
      | ok a t => rw [hi] at hnotok; simp at hnotok
      | exit c t => rfl
      | crash t => rfl
    constructor
    · refine ⟨(runProgram env o t0 p input).events, [], (List.append_nil _).symm, ?_, by simp⟩
      intro e he
      obtain ⟨s, rfl⟩ := hsat e (hev ▸ he)
      rfl
    · rintro ⟨e, he, hcall⟩
      obtain ⟨s, rfl⟩ := hsat e (hev ▸ he)
      exact absurd rfl hcall

theorem C10_clientsOnce_witness :
    (runProgram goodEnv (.ok ()) (.ok ()) okProvider "y").events.filter Event.isAssign
      = assignEvents "sub-id" :=
  (C10_clientsOnce goodEnv (.ok ()) (.ok ()) okProvider "y").2
    ⟨Event.callRegister, by decide, by decide⟩

/-- C3: every remote call goes through `onErrorFail`, which on an error
prints one diagnostic `<call name> failed: <error>` and exits with status 1
immediately — uniformly at all thirteen call sites — and the remote calls of
every run form an initial segment of the fixed step order (so there are no
retries and no recovery), the full order being realized on a successful
confirmed run. -/
theorem C3_uniformErrors :
    (∀ e m : String, onErrorFail (some e) m = M.exit 1 [.print (m ++ ": " ++ e ++ "\n")])
    ∧ (∀ (p : Provider) (e : String), p.registerR = .error e →
        registerResourceProvider p = M.exit 1 [.print "Register resource provider...\n",
          .callRegister, .print ("Register failed: " ++ e ++ "\n")])
    ∧ (∀ (p : Provider) (e : String), p.checkNameR = .error e →
        checkAccountAvailability p = M.exit 1 [.print "Check account name availability...\n",
          .callCheckName, .print ("CheckNameAvailability failed: " ++ e ++ "\n")])
    ∧ (∀ (p : Provider) (e : String), p.createGroupR = .error e →
        createResourceGroup p = M.exit 1 [.print "Create resource group...\n",
          .callCreateGroup, .print ("CreateOrUpdate failed: " ++ e ++ "\n")])
    ∧ (∀ (p : Provider) (e : String), p.createAccountR = .error e →
        createStorageAccount p = M.exit 1 [.print "Create storage account...\n",
          .callCreateAccount, .print ("Create failed: " ++ e ++ "\n")])
    ∧ (∀ (p : Provider) (e : String), p.getPropsR = .error e →
        getStorageAccountProperties p = M.exit 1 [.print "Get storage account properties...\n",
          .callGetProps, .print ("GetProperties failed: " ++ e ++ "\n")])
    ∧ (∀ (p : Provider) (e : String), p.listByGroupR = .error e →
        listStorageAccountsByResourceGroup p = M.exit 1
          [.print ("List all storage accounts in \x27" ++ groupName ++ "\x27 resource group\n"),
           .callListByGroup, .print ("ListByResourceGroup failed: " ++ e ++ "\n")])
    ∧ (∀ (p : Provider) (e : String), p.listR = .error e →
        listStorageAccountsBySubscription p = M.exit 1
          [.print "List all storage accounts under the subscription\n",
           .callListAccounts, .print ("List failed: " ++ e ++ "\n")])
    ∧ (∀ (p : Provider) (e : String), p.listKeysR = .error e →
        getStorageKeys p = M.exit 1 [.print "Get storage account keys...\n",
          .callListKeys, .print ("ListKeys failed: " ++ e ++ "\n")])
    ∧ (∀ (p : Provider) (e : String) (k : AccountKey) (rest : List AccountKey),
        p.regenKeyR = .error e →
        regenStorageKey p ⟨some (k :: rest)⟩ = M.exit 1 [.print "Regenerate account key...\n",
          .callRegenKey k.keyName, .print ("RegenerateKey failed: " ++ e ++ "\n")])
    ∧ (∀ (p : Provider) (e : String), p.updateR = .error e →
        updateStorageAccount p = M.exit 1 [.print "Update storage account...\n",
          .callUpdate fixedTags, .print ("Update failed: " ++ e ++ "\n")])
    ∧ (∀ (p : Provider) (e : String), p.listUsageR = .error e →
        listUsage p = M.exit 1 [.print "List usage for storage accounts in subscription...\n",
          .callListUsage, .print ("List failed: " ++ e ++ "\n")])
    ∧ (∀ (p : Provider) (e : String), p.deleteAccountR = .error e →
        delete p = M.exit 1 [.print "Delete storage account...\n",
          .callDeleteAccount, .print ("Delete failed: " ++ e ++ "\n")])
    ∧ (∀ (p : Provider) (e : String), p.deleteAccountR = .ok () → p.deleteGroupR = .error e →
        delete p = M.exit 1 [.print "Delete storage account...\n", .callDeleteAccount,
          .print "Delete resource group...\n", .callDeleteGroup,
          .print ("Delete failed: " ++ e ++ "\n")])
    ∧ (∀ (p : Provider) (env : Env) (o t0 : Except String Unit) (input : String),
        FrontOf (runProgram env o t0 p input).callSeq fullCallOrder)
    ∧ (runProgram goodEnv (.ok ()) (.ok ()) okProvider "y").callSeq = fullCallOrder := by
  refine ⟨fun e m => rfl, ?_, ?_, ?_, ?_, ?_, ?_, ?_, ?_, ?_, ?_, ?_, ?_, ?_,
    fun p env o t0 input => frontOf_run p env o t0 input, by decide⟩
  · intro p e h
    simp [registerResourceProvider, h]
  · intro p e h
    simp [checkAccountAvailability, h]
  · intro p e h
    simp [createResourceGroup, h]
  · intro p e h
    simp [createStorageAccount, h]
  · intro p e h
    simp [getStorageAccountProperties, h]
  · intro p e h
    simp [listStorageAccountsByResourceGroup, h]
  · intro p e h
    simp [listStorageAccountsBySubscription, h]
  · intro p e h
    simp [getStorageKeys, h]
  · intro p e k rest h
    simp [regenStorageKey, h]
  · intro p e h
    simp [updateStorageAccount, h]
  · intro p e h
    simp [listUsage, h]
  · intro p e h
    simp [delete, h]
  · intro p e h1 h2
    simp [delete, h1, h2]

theorem C3_uniformErrors_witness :
    registerResourceProvider { okProvider with registerR := .error "boom" }
      = M.exit 1 [.print "Register resource provider...\n", .callRegister,
          .print ("Register failed: " ++ "boom" ++ "\n")]
    ∧ checkAccountAvailability { okProvider with checkNameR := .error "boom" }
      = M.exit 1 [.print "Check account name availability...\n", .callCheckName,
          .print ("CheckNameAvailability failed: " ++ "boom" ++ "\n")]
    ∧ createResourceGroup { okProvider with createGroupR := .error "boom" }
      = M.exit 1 [.print "Create resource group...\n", .callCreateGroup,
          .print ("CreateOrUpdate failed: " ++ "boom" ++ "\n")]
    ∧ createStorageAccount { okProvider with createAccountR := .error "boom" }
      = M.exit 1 [.print "Create storage account...\n", .callCreateAccount,
          .print ("Create failed: " ++ "boom" ++ "\n")]
    ∧ getStorageAccountProperties { okProvider with getPropsR := .error "boom" }
      = M.exit 1 [.print "Get storage account properties...\n", .callGetProps,
          .print ("GetProperties failed: " ++ "boom" ++ "\n")]
    ∧ listStorageAccountsByResourceGroup { okProvider with listByGroupR := .error "boom" }
      = M.exit 1 [.print ("List all storage accounts in \x27" ++ groupName
            ++ "\x27 resource group\n"),
          .callListByGroup, .print ("ListByResourceGroup failed: " ++ "boom" ++ "\n")]
    ∧ listStorageAccountsBySubscription { okProvider with listR := .error "boom" }
      = M.exit 1 [.print "List all storage accounts under the subscription\n",
          .callListAccounts, .print ("List failed: " ++ "boom" ++ "\n")]
    ∧ getStorageKeys { okProvider with listKeysR := .error "boom" }
      = M.exit 1 [.print "Get storage account keys...\n", .callListKeys,
          .print ("ListKeys failed: " ++ "boom" ++ "\n")]
    ∧ regenStorageKey { okProvider with regenKeyR := .error "boom" }
        ⟨some [⟨some "key1", some "key1value", "FULL"⟩]⟩
      = M.exit 1 [.print "Regenerate account key...\n", .callRegenKey (some "key1"),
          .print ("RegenerateKey failed: " ++ "boom" ++ "\n")]
    ∧ updateStorageAccount { okProvider with updateR := .error "boom" }
      = M.exit 1 [.print "Update storage account...\n", .callUpdate fixedTags,
          .print ("Update failed: " ++ "boom" ++ "\n")]
    ∧ listUsage { okProvider with listUsageR := .error "boom" }
      = M.exit 1 [.print "List usage for storage accounts in subscription...\n",
          .callListUsage, .print ("List failed: " ++ "boom" ++ "\n")]
    ∧ delete { okProvider with deleteAccountR := .error "boom" }
      = M.exit 1 [.print "Delete storage account...\n", .callDeleteAccount,
          .print ("Delete failed: " ++ "boom" ++ "\n")]
    ∧ delete { okProvider with deleteGroupR := .error "boom" }
      = M.exit 1 [.print "Delete storage account...\n", .callDeleteAccount,
          .print "Delete resource group...\n", .callDeleteGroup,
          .print ("Delete failed: " ++ "boom" ++ "\n")] := by
  obtain ⟨-, h2, h3, h4, h5, h6, h7, h8, h9, h10, h11, h12, h13, h14, -, -⟩ := C3_uniformErrors
  exact ⟨h2 _ "boom" rfl, h3 _ "boom" rfl, h4 _ "boom" rfl, h5 _ "boom" rfl, h6 _ "boom" rfl,
    h7 _ "boom" rfl, h8 _ "boom" rfl, h9 _ "boom" rfl,
    h10 _ "boom" ⟨some "key1", some "key1value", "FULL"⟩ [] rfl,
    h11 _ "boom" rfl, h12 _ "boom" rfl, h13 _ "boom" rfl, h14 _ "boom" rfl rfl⟩

/-- C1 (counterexample): a provider response with `NameAvailable` false whose
`Message` pointer is nil.  The dereference `*result.Message` panics while the
print arguments are evaluated: the run ends abnormally, the reason and
message are never printed (the trace holds exactly the four client
assignments, the two step banners and the two calls), so the claim as stated
fails — although, indeed, no create call is issued. -/
theorem C1_counterexample :
    (∃ r, cexUnavailable.checkNameR = .ok r ∧ r.nameAvailable = some false)
    ∧ (runProgram goodEnv (.ok ()) (.ok ()) cexUnavailable "n").events
        = assignEvents "sub-id" ++ [.print "Register resource provider...\n", .callRegister,
            .print "Check account name availability...\n", .callCheckName]
    ∧ (runProgram goodEnv (.ok ()) (.ok ()) cexUnavailable "n").outcome = .panicked
    ∧ Event.callCreateGroup ∉ (runProgram goodEnv (.ok ()) (.ok ()) cexUnavailable "n").events :=
  ⟨⟨⟨some false, "AlreadyExists", none⟩, rfl, rfl⟩, by decide, by decide, by decide⟩

/-- C1 (amended: the response must also carry a non-nil `Message`, otherwise
the script panics instead — see `C1_counterexample`): when the availability
check reports the name unavailable with a message present, the script prints
the reason and the message plus the no-resources notice, exits with status 1,
and the create-resource-group and create-storage-account calls are never
issued: the only calls of the whole run are register and check-name. -/
theorem C1_unavailable_stops (env : Env) (p : Provider) (input : String)
    (r : CheckNameAvailabilityResult) (m : String)
    (h1 : env.subscriptionID ≠ "") (h2 : env.tenantID ≠ "") (h3 : env.clientID ≠ "")
    (h4 : env.clientSecret ≠ "")
    (hreg : p.registerR = .ok ()) (hchk : p.checkNameR = .ok r)
    (hna : r.nameAvailable = some false) (hmsg : r.message = some m) :
    (runProgram env (.ok ()) (.ok ()) p input).outcome = .code 1
    ∧ Event.print ("\t\x27" ++ accountName ++ "\x27 is not available :(\n\tReason: "
        ++ r.reason ++ "\n\tMessage: " ++ m ++ "\n")
        ∈ (runProgram env (.ok ()) (.ok ()) p input).events
    ∧ Event.print "No resources were created.\n"
        ∈ (runProgram env (.ok ()) (.ok ()) p input).events
    ∧ Event.callCreateGroup ∉ (runProgram env (.ok ()) (.ok ()) p input).events
    ∧ Event.callCreateAccount ∉ (runProgram env (.ok ()) (.ok ()) p input).events
    ∧ (runProgram env (.ok ()) (.ok ()) p input).callSeq = [.register, .checkName] := by
  have hrun : runProgram env (.ok ()) (.ok ()) p input
      = M.exit 1 (assignEvents env.subscriptionID
          ++ [.print "Register resource provider...\n", .callRegister,
              .print "Check account name availability...\n", .callCheckName,
              .print ("\t\x27" ++ accountName ++ "\x27 is not available :(\n\tReason: "
                ++ r.reason ++ "\n\tMessage: " ++ m ++ "\n"),
              .print "No resources were created.\n"]) := by
    unfold runProgram main registerResourceProvider checkAccountAvailability
    rw [init_ok_eval h1 h2 h3 h4, hreg, hchk]
    simp [hna, hmsg, assignEvents]
  rw [hrun]
  refine ⟨rfl, by simp, by simp, ?_, ?_, ?_⟩
  · simp [assignEvents]
  · simp [assignEvents]
  · simp [M.callSeq, Event.callOf, assignEvents]

theorem C1_unavailable_stops_witness :
    (runProgram goodEnv (.ok ()) (.ok ())
        { okProvider with checkNameR := .ok ⟨some false, "AlreadyExists", some "name taken"⟩ }
        "n").outcome = .code 1
    ∧ Event.callCreateGroup ∉ (runProgram goodEnv (.ok ()) (.ok ())
        { okProvider with checkNameR := .ok ⟨some false, "AlreadyExists", some "name taken"⟩ }
        "n").events := by
  have h := C1_unavailable_stops goodEnv
    { okProvider with checkNameR := .ok ⟨some false, "AlreadyExists", some "name taken"⟩ }
    "n" ⟨some false, "AlreadyExists", some "name taken"⟩ "name taken"
    (by decide) (by decide) (by decide) (by decide) rfl rfl rfl rfl
  exact ⟨h.1, h.2.2.2.1⟩

/-- C6 (counterexample): the stated sufficient condition — every key value
pointer non-nil and at least 5 bytes, key list non-empty — holds for this
response, yet the key-printing step panics, because `*key.KeyName` is also
dereferenced and the key-name pointer is nil. -/
theorem C6_counterexample :
    (∀ k ∈ badKeyList, k.value.isSome = true ∧ 5 ≤ (k.value.getD "").length)
    ∧ badKeyList ≠ []
    ∧ cexNilKeyName.listKeysR = .ok ⟨some badKeyList⟩
    ∧ (getStorageKeys cexNilKeyName).isCrash = true :=
  ⟨by decide, by decide, rfl, by decide⟩

/-- C6 (amended: the sufficient condition must also require non-nil key-name
pointers, which the code dereferences as well — see `C6_counterexample`):
when the returned key list is present and every key has non-nil name and
value pointers with values of at least 5 bytes, key printing succeeds, and
regeneration succeeds when additionally both key lists are non-empty and the
regenerated first key is well-formed; a nil list pointer, a nil key field, a
value shorter than 5 bytes, or an empty list for regeneration, each makes
the step panic instead of following the uniform print-and-exit policy. -/
theorem C6_keyPrinting (p : Provider) (kr : AccountListKeysResult) (ks : List AccountKey) :
    (p.listKeysR = .ok kr → kr.keys = some ks → (∀ k ∈ ks, WellKey k) →
      (getStorageKeys p).isOk = true)
    ∧ (p.listKeysR = .ok kr → kr.keys = some ks → (∃ k ∈ ks, ¬ WellKey k) →
      (getStorageKeys p).isCrash = true)
    ∧ (p.listKeysR = .ok kr → kr.keys = none → (getStorageKeys p).isCrash = true)
    ∧ (∀ keys : AccountListKeysResult, keys.keys = some [] →
        (regenStorageKey p keys).isCrash = true)
    ∧ (∀ keys : AccountListKeysResult, keys.keys = none →
        (regenStorageKey p keys).isCrash = true)
    ∧ (∀ (keys : AccountListKeysResult) (k0 : AccountKey) (rest : List AccountKey)
        (nr : AccountListKeysResult) (nk0 : AccountKey) (nrest : List AccountKey),
        keys.keys = some (k0 :: rest) → p.regenKeyR = .ok nr →
        nr.keys = some (nk0 :: nrest) → WellKey nk0 →
        (regenStorageKey p keys).isOk = true) := by
  refine ⟨?_, ?_, ?_, ?_, ?_, ?_⟩
  · intro h1 h2 hw
    rw [getStorageKeys_loop]
    simp [h1, h2, forEach_keyBody_eval hw]
  · intro h1 h2 hex
    have hc := forEach_keyBody_crash hex
    rw [getStorageKeys_loop]
    cases hfe : forEach ks keyBody with
    | ok a t => rw [hfe] at hc; simp at hc
    | exit c t => rw [hfe] at hc; simp at hc
    | crash t => simp [h1, h2, hfe]
  · intro h1 h2
    rw [getStorageKeys_loop]
    simp [h1, h2]
  · intro keys hk
    unfold regenStorageKey
    simp [hk]
  · intro keys hk
    unfold regenStorageKey
    simp [hk]
  · intro keys k0 rest nr nk0 nrest hk hr hnk hw
    obtain ⟨hn, hv, hl⟩ := hw
    obtain ⟨nn, hnn⟩ := Option.isSome_iff_exists.mp hn
    obtain ⟨nv, hnv⟩ := Option.isSome_iff_exists.mp hv
    rw [hnv] at hl
    simp only [Option.getD_some] at hl
    unfold regenStorageKey takeBytes
    simp [hk, hr, hnk, hnn, hnv, hl]

theorem C6_keyPrinting_witness :
    (getStorageKeys okProvider).isOk = true
    ∧ (regenStorageKey okProvider okKeysResult).isOk = true := by
  have h := C6_keyPrinting okProvider okKeysResult
    [⟨some "key1", some "key1value", "FULL"⟩, ⟨some "key2", some "key2value", "FULL"⟩]
  exact ⟨h.1 rfl rfl (by decide),
    h.2.2.2.2.2 okKeysResult ⟨some "key1", some "key1value", "FULL"⟩
      [⟨some "key2", some "key2value", "FULL"⟩] regenKeysResult
      ⟨some "key1", some "regenerated1", "FULL"⟩
      [⟨some "key2", some "key2value", "FULL"⟩] rfl rfl rfl (by decide)⟩

/-- C7: the regeneration step regenerates exactly the first key of the
previously fetched list — the regenerate call carries the key name of index
0 and no other regenerate call occurs — and prints the new key through the
same display line (`keyLine`: name, 5-byte value prefix, permissions) as the
listing step; under the canonical provider, which returns a distinct value,
the printed new-key line differs from the line the listing step printed for
the original first key. -/
theorem C7_regenFirstKey (p : Provider) (keys : AccountListKeysResult)
    (k0 : AccountKey) (rest : List AccountKey) (nr : AccountListKeysResult)
    (nk0 : AccountKey) (nrest : List AccountKey) (nn nv : String)
    (hk : keys.keys = some (k0 :: rest))
    (hr : p.regenKeyR = .ok nr) (hnk : nr.keys = some (nk0 :: nrest))
    (hname : nk0.keyName = some nn) (hval : nk0.value = some nv) (hlen : 5 ≤ nv.length) :
    regenStorageKey p keys = M.ok () [.print "Regenerate account key...\n",
        .callRegenKey k0.keyName, .print "New key\n",
        .print (keyLine nn (nv.take 5) nk0.permissions)]
    ∧ (∀ o, Event.callRegenKey o ∈ (regenStorageKey p keys).events → o = k0.keyName)
    ∧ Event.print (keyLine "key1" ("regenerated1".take 5) "FULL")
        ∈ (regenStorageKey okProvider okKeysResult).events
    ∧ Event.print (keyLine "key1" ("key1value".take 5) "FULL")
        ∈ (getStorageKeys okProvider).events
    ∧ keyLine "key1" ("regenerated1".take 5) "FULL"
        ≠ keyLine "key1" ("key1value".take 5) "FULL" := by
  have h1 : regenStorageKey p keys = M.ok () [.print "Regenerate account key...\n",
      .callRegenKey k0.keyName, .print "New key\n",
      .print (keyLine nn (nv.take 5) nk0.permissions)] := by
    unfold regenStorageKey takeBytes
    simp [hk, hr, hnk, hname, hval, hlen]
  refine ⟨h1, ?_, by decide, by decide, by decide⟩
  intro o ho
  rw [h1] at ho
  simp at ho
  exact ho

theorem C7_regenFirstKey_witness :
    regenStorageKey okProvider okKeysResult = M.ok ()
      [.print "Regenerate account key...\n", .callRegenKey (some "key1"),
       .print "New key\n", .print (keyLine "key1" ("regenerated1".take 5) "FULL")] :=
  (C7_regenFirstKey okProvider okKeysResult ⟨some "key1", some "key1value", "FULL"⟩
    [⟨some "key2", some "key2value", "FULL"⟩] regenKeysResult
    ⟨some "key1", some "regenerated1", "FULL"⟩ [⟨some "key2", some "key2value", "FULL"⟩]
    "key1" "regenerated1" rfl rfl rfl rfl rfl (by decide)).1

/-- C9: the key-listing step fetches the account keys and, for every key in
the returned list, prints its name, the 5-byte truncated prefix of its
secret value, and its permission scope (each key followed by a separator
line), returning the fetched result. -/
theorem C9_keyListing (p : Provider) (kr : AccountListKeysResult) (ks : List AccountKey)
    (h1 : p.listKeysR = .ok kr) (h2 : kr.keys = some ks) (hw : ∀ k ∈ ks, WellKey k) :
    getStorageKeys p = M.ok kr ([.print "Get storage account keys...\n", .callListKeys,
        .print ("\x27" ++ accountName ++ "\x27 storage account keys\n")]
      ++ ks.flatMap renderKey)
    ∧ (∀ k ∈ ks, ∀ kn v, k.keyName = some kn → k.value = some v →
        Event.print (keyLine kn (v.take 5) k.permissions) ∈ (getStorageKeys p).events) := by
  have he : getStorageKeys p = M.ok kr ([.print "Get storage account keys...\n", .callListKeys,
      .print ("\x27" ++ accountName ++ "\x27 storage account keys\n")]
      ++ ks.flatMap renderKey) := by
    rw [getStorageKeys_loop]
    simp [h1, h2, forEach_keyBody_eval hw]
  refine ⟨he, ?_⟩
  intro k hk kn v hkn hv
  rw [he]
  have hmem : Event.print (keyLine kn (v.take 5) k.permissions) ∈ ks.flatMap renderKey := by
    refine List.mem_flatMap.mpr ⟨k, hk, ?_⟩
    unfold renderKey
    rw [hkn, hv]
    simp
  simp only [events_ok, List.mem_append]
  exact Or.inr hmem

theorem C9_keyListing_witness :
    getStorageKeys okProvider = M.ok okKeysResult
      ([.print "Get storage account keys...\n", .callListKeys,
        .print ("\x27" ++ accountName ++ "\x27 storage account keys\n")]
      ++ [⟨some "key1", some "key1value", "FULL"⟩,
          (⟨some "key2", some "key2value", "FULL"⟩ : AccountKey)].flatMap renderKey) :=
  (C9_keyListing okProvider okKeysResult
    [⟨some "key1", some "key1value", "FULL"⟩, ⟨some "key2", some "key2value", "FULL"⟩]
    rfl rfl (by decide)).1

end StorageRP
